import Mathlib

/-!
Verification of the Tab2 agent-loop and context-management engine.

This file gives a shallow embedding of the backend core of the repository:
the `Conversation` class (message log, pending tool calls, token-budget
compaction with summary generation) from `conversationManager.ts`
(latest revision, the one with `MAX_CONTEXT_TOKENS = 6500` and the
asynchronous `getMessagesForAPI`), the `ToolCallHandler` from
`toolCallHandler.ts`, and the `ChatService` orchestrator
(`continueConversation`, `handleMessage`, `confirmToolCalls`).

External collaborators are modelled as oracles:
* the Anthropic reasoning engine is a function from the call index and the
  message list to an `Except String EngineResponse` (an `.error` models a
  thrown/rejected API call);
* the summarization request issued during compaction is a function from the
  message list sent to the engine to `Except String (List Block)`;
* the Google Sheets service is a record of functions, one per operation,
  each returning `Except String` (an `.error` models a thrown exception).

JavaScript `TypeError` crashes (reading a property of `undefined`) are
modelled as `Except.error`.  JSON serialization (`JSON.stringify`) is
modelled by explicit string builders that follow the source's object
shapes, omitting absent optional fields as `JSON.stringify` omits
`undefined` properties.  All executions record a trace of the Sheets
operations invoked (operation name and spreadsheet id) and a count of
reasoning-engine requests, so that "the Resource Client is not called" and
"the engine is not called" are provable statements about the model.
-/

set_option maxRecDepth 4000

deriving instance DecidableEq for Except

namespace Tab2

/-! ## JSON string builders (model of JSON.stringify for the payload shapes used) -/

/-- Escape backslashes and double quotes, character by character — the
single pass is equivalent to `JSON.stringify`'s escaping of these two
characters. -/
def jsonEscapeChars : List Char → List Char
  | [] => []
  | c :: cs =>
    if c = '\\' then '\\' :: '\\' :: jsonEscapeChars cs
    else if c = '"' then '\\' :: '"' :: jsonEscapeChars cs
    else c :: jsonEscapeChars cs

/-- Escape backslashes and double quotes as `JSON.stringify` does for the
characters that actually occur in this development. -/
def jsonEscape (s : String) : String :=
  ⟨jsonEscapeChars s.data⟩

/-- A JSON string literal. -/
def jsonStr (s : String) : String :=
  "\"" ++ jsonEscape s ++ "\""

/-- A JSON object from already-serialized field values. -/
def jsonObj (fields : List (String × String)) : String :=
  "\x7b" ++ String.intercalate "," (fields.map fun kv => jsonStr kv.1 ++ ":" ++ kv.2) ++ "\x7d"

/-- A JSON array from already-serialized elements. -/
def jsonArr (xs : List String) : String :=
  "[" ++ String.intercalate "," xs ++ "]"

/-- A 2D array of cell values.  The source passes dynamically typed cell
values (string/number/boolean); the model uses their string forms. -/
def jsonCells (vss : List (List String)) : String :=
  jsonArr (vss.map fun row => jsonArr (row.map jsonStr))

/-- Optional string field: omitted when absent, as `JSON.stringify` omits
`undefined` properties. -/
def optStrField (k : String) : Option String → List (String × String)
  | none => []
  | some v => [(k, jsonStr v)]

/-- Optional numeric field. -/
def optNatField (k : String) : Option Nat → List (String × String)
  | none => []
  | some v => [(k, Nat.repr v)]

/-- Optional 2D-array field. -/
def optCellsField (k : String) : Option (List (List String)) → List (String × String)
  | none => []
  | some v => [(k, jsonCells v)]

/-! ## Tool-call inputs -/

/-- The `position` object of a `create_chart` input. -/
structure ChartPosition where
  rowIndex : Option Nat
  columnIndex : Option Nat
  deriving DecidableEq, Repr

/-- The dynamically-typed `input` of a tool call, restricted to the fields
the backend actually reads (`range`, `values`, `valueInputOption`,
`chartType`, `dataSourceRange`, `title`, `legendPosition`, `position`).
Absent fields model `undefined`. -/
structure ToolInput where
  range : Option String := none
  values : Option (List (List String)) := none
  valueInputOption : Option String := none
  chartType : Option String := none
  dataSourceRange : Option String := none
  title : Option String := none
  legendPosition : Option String := none
  position : Option ChartPosition := none
  deriving DecidableEq, Repr

def ChartPosition.json (p : ChartPosition) : String :=
  jsonObj (optNatField "rowIndex" p.rowIndex ++ optNatField "columnIndex" p.columnIndex)

/-- Model of `JSON.stringify(toolCall.input)`, serializing the present
fields in schema order. -/
def ToolInput.json (i : ToolInput) : String :=
  jsonObj (optStrField "range" i.range
    ++ optCellsField "values" i.values
    ++ optStrField "valueInputOption" i.valueInputOption
    ++ optStrField "chartType" i.chartType
    ++ optStrField "dataSourceRange" i.dataSourceRange
    ++ optStrField "title" i.title
    ++ optStrField "legendPosition" i.legendPosition
    ++ (match i.position with
        | none => []
        | some p => [("position", p.json)]))

/-! ## Messages and content blocks -/

/-- A content block of a message, tagged by its `type` field.  `other`
stands for any block whose `type` is none of the three recognized tags. -/
inductive Block where
  | text (text : String)
  | toolUse (id : String) (name : String) (input : ToolInput)
  | toolResult (toolUseId : String) (content : String)
  | other
  deriving DecidableEq, Repr

/-- The `type` tag of a block. -/
def Block.typeName : Block → String
  | .text _ => "text"
  | .toolUse .. => "tool_use"
  | .toolResult .. => "tool_result"
  | .other => "other"

/-- Message content: either a bare string or an array of blocks. -/
inductive Content where
  | str (s : String)
  | blocks (bs : List Block)
  deriving DecidableEq, Repr

inductive Role where
  | user
  | assistant
  deriving DecidableEq, Repr

structure Message where
  role : Role
  content : Content
  deriving DecidableEq, Repr

/-! ## Token estimation (`estimateTokens`, `estimateTotalTokens`) -/

/-- `Math.ceil(n / 4)` on a string length. -/
def ceilDiv4 (n : Nat) : Nat := (n + 3) / 4

/-- Per-block contribution inside `estimateTokens`'s loop over array
content: text adds `ceil(len/4)`; tool_use adds `100 + ceil(len(stringify
input)/4)`; tool_result adds `50 + ceil(len/4)` (its content is always a
string in this backend); any other block type adds nothing. -/
def Block.estimate : Block → Nat
  | .text t => ceilDiv4 t.length
  | .toolUse _ _ input => 100 + ceilDiv4 input.json.length
  | .toolResult _ c => 50 + ceilDiv4 c.length
  | .other => 0

/-- `Conversation.estimateTokens`: 50 base overhead plus content cost. -/
def estimateTokens (m : Message) : Nat :=
  50 + match m.content with
  | .str s => ceilDiv4 s.length
  | .blocks bs => (bs.map Block.estimate).sum

/-- `Conversation.estimateTotalTokens`: sum over all messages. -/
def estimateTotalTokens (l : List Message) : Nat :=
  (l.map estimateTokens).sum

/-! ## Constants of the latest revision -/

def MAX_CONTEXT_TOKENS : Nat := 6500
def RESERVE_TOKENS : Nat := 4096

/-- `maxAllowedTokens = MAX_CONTEXT_TOKENS - RESERVE_TOKENS`, the budget. -/
def maxAllowedTokens : Nat := MAX_CONTEXT_TOKENS - RESERVE_TOKENS

/-! ## Message classification helpers of the source -/

/-- `Conversation.hasToolUseBlocks`. -/
def hasToolUseBlocks (m : Message) : Bool :=
  match m.content with
  | .str _ => false
  | .blocks bs => bs.any fun b => b.typeName = "tool_use"

/-- `Conversation.hasToolResultBlocks`. -/
def hasToolResultBlocks (m : Message) : Bool :=
  match m.content with
  | .str _ => false
  | .blocks bs => bs.any fun b => b.typeName = "tool_result"

/-- The JavaScript `TypeError` raised when reading a property of
`undefined`. -/
def typeErrorMsg : String := "TypeError: cannot read properties of undefined"

/-- `Conversation.getMessageType`: the `type` of the first content block
when the content is a (truthy) array — reading `content[0].type` of an
empty array crashes — and `"unknown"` otherwise. -/
def getMessageType (m : Message) : Except String String :=
  match m.content with
  | .str _ => .ok "unknown"
  | .blocks [] => .error typeErrorMsg
  | .blocks (b :: _) => .ok b.typeName

/-- `Conversation.getMessageId`: the `id` of a leading tool_use block, the
`tool_use_id` of a leading tool_result block, `""` otherwise. -/
def getMessageId (m : Message) : Except String String :=
  match getMessageType m with
  | .error e => .error e
  | .ok ty =>
    match ty, m.content with
    | "tool_use", .blocks (Block.toolUse id _ _ :: _) => .ok id
    | "tool_result", .blocks (Block.toolResult tuId _ :: _) => .ok tuId
    | _, _ => .ok ""

/-! ## Pair validation (`Conversation.validateToolUsePairs`, latest revision) -/

/-- `Conversation.validateToolUsePairs`: scans forward; a tool_use-first
message must be immediately followed by a tool_result-first message with a
matching id (both kept, the scan skips past the pair), otherwise the
tool_use message is dropped; a tool_result-first message reached on its own
is dropped; text-first messages are kept; any other type (including bare
string content, which `getMessageType` reports as `"unknown"`) is dropped.
Reading past the end of the list (a trailing tool_use message) or reading
`content[0]` of an empty block array crashes with a `TypeError`. -/
def validateToolUsePairs : List Message → Except String (List Message)
  | [] => .ok []
  | [msg] =>
    match getMessageType msg, getMessageId msg with
    | .error e, _ => .error e
    | .ok _, .error e => .error e
    | .ok ty, .ok _ =>
      if ty = "tool_use" then .error typeErrorMsg
      else if ty = "tool_result" then .ok []
      else if ty = "text" then .ok [msg]
      else .ok []
  | msg :: next :: rest2 =>
    match getMessageType msg, getMessageId msg with
    | .error e, _ => .error e
    | .ok _, .error e => .error e
    | .ok ty, .ok mid =>
      if ty = "tool_use" then
        match getMessageType next, getMessageId next with
        | .error e, _ => .error e
        | .ok _, .error e => .error e
        | .ok nty, .ok nid =>
          if nty = "tool_result" ∧ mid = nid then
            match validateToolUsePairs rest2 with
            | .error e => .error e
            | .ok v => .ok (msg :: next :: v)
          else
            validateToolUsePairs (next :: rest2)
      else if ty = "tool_result" then
        validateToolUsePairs (next :: rest2)
      else if ty = "text" then
        match validateToolUsePairs (next :: rest2) with
        | .error e => .error e
        | .ok v => .ok (msg :: v)
      else
        validateToolUsePairs (next :: rest2)

/-! ## Compaction suffix selection -/

/-- The backwards accumulation of `getMessagesForAPI`: starting from the
newest message, keep a message while `acc + tokens < maxAllowedTokens`,
stop at the first overflow.  This runs over the reversed log. -/
def keepWithinBudget : Nat → List Message → List Message
  | _, [] => []
  | acc, m :: rest =>
    if acc + estimateTokens m < maxAllowedTokens then
      m :: keepWithinBudget (acc + estimateTokens m) rest
    else []

/-- The kept suffix (`latestMessages`) in log order. -/
def collectLatest (log : List Message) : List Message :=
  (keepWithinBudget 0 log.reverse).reverse

/-! ## Summary generation (`Conversation.generateSummaryMessage`) -/

/-- The summarizer oracle: the summarization request sent to the reasoning
engine, returning the response content blocks (or a thrown error). -/
abbrev Summarizer := List Message → Except String (List Block)

/-- The forward selection of messages to summarize: starting from
`promptTokens + 4096 = 500 + 4096`, keep a message while the running total
stays at most `MAX_CONTEXT_TOKENS - 1000`, stop at the first overflow. -/
def selectForSummary : Nat → List Message → List Message
  | _, [] => []
  | acc, m :: rest =>
    if acc + estimateTokens m ≤ MAX_CONTEXT_TOKENS - 1000 then
      m :: selectForSummary (acc + estimateTokens m) rest
    else []

/-- The fixed instructional compaction prompt (verbatim constant of the
source; its exact text is not load-bearing for any claim). -/
def compactionPrompt : String :=
  "You have been working on the task described above but have not yet completed it. Write a continuation summary that will allow you (or another instance of yourself) to resume work efficiently in a future context window where the conversation history will be replaced with this summary. Your summary should be structured, concise, and actionable."

/-- The prompt message appended after the messages to summarize. -/
def promptMessage : Message := ⟨.user, .str compactionPrompt⟩

/-- The deterministic fallback text used when the summarization call
throws: `[Previous conversation context: N messages about working with the
spreadsheet]`. -/
def placeholderText (n : Nat) : String :=
  "[Previous conversation context: " ++ Nat.repr n ++ " messages about working with the spreadsheet]"

/-- The note prepended when fewer messages were summarized than excluded. -/
def summaryNote (k n : Nat) : String :=
  "[Note: This summary covers " ++ Nat.repr k ++ " of " ++ Nat.repr n ++ " excluded messages]\n\n"

/-- The text of a text block, for the response-text extraction. -/
def Block.textOf : Block → Option String
  | .text t => some t
  | _ => none

/-- `Conversation.generateSummaryMessage`: select a prefix of the excluded
messages within the secondary sub-budget, prune it with
`validateToolUsePairs` (a crash there propagates: it happens before the
`try`), then issue the summarization request.  A thrown engine call is
caught and replaced by the deterministic placeholder; a response with no
text content yields `none` (no summary message at all); otherwise the
joined text (with a coverage note when the selection was partial) becomes
a user message. -/
def generateSummaryMessage (msgs : List Message) (summarizer : Summarizer) :
    Except String (Option Message) :=
  match validateToolUsePairs (selectForSummary (500 + 4096) msgs) with
  | .error e => .error e
  | .ok messagesForSummary =>
    match summarizer (messagesForSummary ++ [promptMessage]) with
    | .error _ => .ok (some ⟨.user, .str (placeholderText msgs.length)⟩)
    | .ok respContent =>
      let summaryText := String.intercalate "\n" (respContent.filterMap Block.textOf)
      if summaryText = "" then
        .ok none
      else
        let summaryContent :=
          if messagesForSummary.length < msgs.length then
            summaryNote messagesForSummary.length msgs.length ++ summaryText
          else summaryText
        .ok (some ⟨.user, .str summaryContent⟩)

/-! ## `Conversation.getMessagesForAPI` (latest revision) -/

/-- The excluded prefix computed by `getMessagesForAPI`:
`excludedStartIndex = log.length - validatedMessages.length`, and the slice
`log.slice(0, excludedStartIndex)` when that index is positive. -/
def excludedMessages (log : List Message) (validatedLength : Nat) : List Message :=
  if log.length - validatedLength > 0 then log.take (log.length - validatedLength) else []

/-- `Conversation.getMessagesForAPI`: below the budget the log is returned
unchanged; otherwise the newest-first suffix that fits is kept, validated
for pairing, and — when a nonempty prefix was excluded — prefixed by the
generated summary message (when one was produced). -/
def getMessagesForAPI (log : List Message) (summarizer : Summarizer) :
    Except String (List Message) :=
  if estimateTotalTokens log ≤ maxAllowedTokens then
    .ok log
  else
    match validateToolUsePairs (collectLatest log) with
    | .error e => .error e
    | .ok validatedMessages =>
      if (excludedMessages log validatedMessages.length).length > 0 then
        match generateSummaryMessage (excludedMessages log validatedMessages.length)
            summarizer with
        | .error e => .error e
        | .ok (some s) => .ok (s :: validatedMessages)
        | .ok none => .ok validatedMessages
      else
        .ok validatedMessages

/-! ## Conversation state (`Conversation` class, stateful part) -/

/-- A tool invocation as the backend receives it from the engine response
(`{id, name, input}`). -/
structure ToolCall where
  id : String
  name : String
  input : ToolInput
  deriving DecidableEq, Repr

/-- The mutable state of one `Conversation` object: the ordered message
log and the insertion-ordered pending map (`Map<string, ToolCall>`). -/
structure Conversation where
  id : String
  spreadsheetId : String
  messages : List Message
  pendingToolCalls : List (String × ToolCall)
  deriving DecidableEq, Repr

namespace Conversation

/-- `new Conversation(id, spreadsheetId)`. -/
def mk0 (id spreadsheetId : String) : Conversation :=
  ⟨id, spreadsheetId, [], []⟩

/-- `Conversation.addMessage`. -/
def addMessage (c : Conversation) (m : Message) : Conversation :=
  { c with messages := c.messages ++ [m] }

/-- `Map.set` semantics: replace in place when the key exists, append
otherwise. -/
def mapSet (m : List (String × ToolCall)) (k : String) (v : ToolCall) :
    List (String × ToolCall) :=
  if m.any fun p => p.1 = k then
    m.map fun p => if p.1 = k then (k, v) else p
  else m ++ [(k, v)]

/-- `Conversation.addPendingToolCall`. -/
def addPendingToolCall (c : Conversation) (tc : ToolCall) : Conversation :=
  { c with pendingToolCalls := mapSet c.pendingToolCalls tc.id tc }

/-- `Conversation.getPendingToolCalls`: map the ids through the pending
map and drop the misses. -/
def getPendingToolCalls (c : Conversation) (toolCallIds : List String) : List ToolCall :=
  toolCallIds.filterMap fun id =>
    (c.pendingToolCalls.find? fun p => p.1 = id).map (·.2)

/-- `Conversation.getAllPendingToolCalls` (insertion order). -/
def getAllPendingToolCalls (c : Conversation) : List ToolCall :=
  c.pendingToolCalls.map (·.2)

/-- `Conversation.hasPendingToolCalls`. -/
def hasPendingToolCalls (c : Conversation) : Bool :=
  !c.pendingToolCalls.isEmpty

/-- `Conversation.clearPendingToolCalls`. -/
def clearPendingToolCalls (c : Conversation) (toolCallIds : List String) : Conversation :=
  { c with pendingToolCalls := c.pendingToolCalls.filter fun p => !toolCallIds.contains p.1 }

end Conversation

/-! ## The Sheets service (external collaborator, modelled as an oracle) -/

structure ReadResult where
  values : List (List String)
  range : String
  deriving DecidableEq, Repr

structure WriteResult where
  updatedCells : Nat
  updatedRows : Nat
  updatedRange : String
  deriving DecidableEq, Repr

structure ClearResult where
  clearedRange : String
  deriving DecidableEq, Repr

structure ChartResult where
  chartId : Nat
  deriving DecidableEq, Repr

/-- The options object passed to `createChart`. -/
structure ChartArgs where
  chartType : Option String
  dataSourceRange : Option String
  title : Option String
  legendPosition : Option String
  position : Option ChartPosition
  deriving DecidableEq, Repr

/-- The operation names of the Sheets service. -/
inductive SheetsOp where
  | readRange
  | writeRange
  | appendRow
  | clearRange
  | createChart
  deriving DecidableEq, Repr

/-- One recorded Resource Client invocation: which operation was called
and against which spreadsheet id. -/
structure SheetsCall where
  op : SheetsOp
  spreadsheetId : String
  deriving DecidableEq, Repr

/-- The Sheets service oracle: each operation may return a result or throw
(`Except.error` carries `error.message`). -/
structure SheetsModel where
  configured : Bool
  readRange : String → Option String → Except String ReadResult
  writeRange : String → Option String → Option (List (List String)) → String →
    Except String WriteResult
  appendRow : String → Option String → Option (List (List String)) → String →
    Except String WriteResult
  clearRange : String → Option String → Except String ClearResult
  createChart : String → ChartArgs → Except String ChartResult

/-! ## ToolCallHandler -/

/-- The fixed write set of `handleToolCall`. -/
def writeOperations : List String :=
  ["write_range", "append_row", "clear_range", "create_chart"]

/-- All tool names with a case in the `executeToolCall` switch. -/
def knownToolNames : List String :=
  ["read_range", "write_range", "append_row", "clear_range", "create_chart"]

/-- `toolCall.input.valueInputOption || 'USER_ENTERED'`. -/
def vioOrDefault : Option String → String
  | none => "USER_ENTERED"
  | some s => if s = "" then "USER_ENTERED" else s

/-- Double each double quote (the CSV escape `replace(/"/g, '""')`). -/
def csvEscapeChars : List Char → List Char
  | [] => []
  | c :: cs =>
    if c = '"' then '"' :: '"' :: csvEscapeChars cs
    else c :: csvEscapeChars cs

/-- Whitespace trim on both ends (model of `String.prototype.trim`). -/
def trimChars (l : List Char) : List Char :=
  ((l.dropWhile Char.isWhitespace).reverse.dropWhile Char.isWhitespace).reverse

/-- The CSV cells of one row, padded to `maxCols`, with CSV escaping of
cells containing commas, quotes or newlines. -/
def csvCells (maxCols : Nat) (row : List String) : List String :=
  (List.range maxCols).map fun col =>
    let cellValue := (row.get? col).getD ""
    if cellValue.data.contains ',' ∨ cellValue.data.contains '"'
        ∨ cellValue.data.contains '\n' then
      "\"" ++ String.mk (csvEscapeChars cellValue.data) ++ "\""
    else cellValue

/-- `ToolCallHandler.formatReadRangeResult`: header with range and
dimensions, then the values as CSV lines, trimmed. -/
def formatReadRangeResult (r : ReadResult) : String :=
  if r.values.isEmpty then
    "Range: " ++ r.range ++ "\n\nNo data found in this range."
  else
    let maxCols := (r.values.map List.length).foldl max 0
    let header := "Range: " ++ r.range ++ "\n" ++
      "Data: " ++ Nat.repr r.values.length ++ " row" ++
      (if r.values.length ≠ 1 then "s" else "") ++ ", " ++
      Nat.repr maxCols ++ " column" ++ (if maxCols ≠ 1 then "s" else "") ++ "\n\n"
    let body := String.join (r.values.map fun row =>
      String.intercalate "," (csvCells maxCols row) ++ "\n")
    String.mk (trimChars (header ++ body).data)

/-- The `ToolResult` record returned by the handler. -/
structure ToolResult where
  toolUseId : String
  content : String
  isError : Bool
  requiresConfirmation : Bool
  deriving DecidableEq, Repr

/-- The pending-confirmation outcome payload of a write-class invocation:
`JSON.stringify` of the `pending:true` echo object (absent input fields
omitted). -/
def pendingContent (tc : ToolCall) : String :=
  jsonObj ([("pending", "true"), ("operation", jsonStr tc.name)]
    ++ optStrField "range" tc.input.range
    ++ optCellsField "values" tc.input.values
    ++ optStrField "chartType" tc.input.chartType
    ++ optStrField "dataSourceRange" tc.input.dataSourceRange
    ++ optStrField "title" tc.input.title)

/-- The catch-block conversion of a thrown Sheets error into an error
outcome (`error.message || 'Tool execution failed'`). -/
def catchResult (tc : ToolCall) (e : String) : ToolResult :=
  ⟨tc.id, jsonObj [("error", jsonStr (if e = "" then "Tool execution failed" else e))],
    true, false⟩

/-- The default-case outcome for a tool name with no switch case. -/
def unknownToolResult (tc : ToolCall) : ToolResult :=
  ⟨tc.id, jsonObj [("error", jsonStr ("Unknown tool: " ++ tc.name))], true, false⟩

/-- `ToolCallHandler.executeToolCall`: dispatch on the tool name, call the
Sheets service, format the result; any thrown Sheets error is caught and
converted by `catchResult`; an unknown name yields an error outcome.  The
second component records the Sheets operations invoked. -/
def executeToolCall (svc : SheetsModel) (tc : ToolCall) (spreadsheetId : String) :
    ToolResult × List SheetsCall :=
  if tc.name = "read_range" then
    (match svc.readRange spreadsheetId tc.input.range with
     | .ok result => ⟨tc.id, formatReadRangeResult result, false, false⟩
     | .error e => catchResult tc e,
     [⟨.readRange, spreadsheetId⟩])
  else if tc.name = "write_range" then
    (match svc.writeRange spreadsheetId tc.input.range tc.input.values
        (vioOrDefault tc.input.valueInputOption) with
     | .ok r => ⟨tc.id, jsonObj [("success", "true"),
         ("updatedCells", Nat.repr r.updatedCells),
         ("updatedRows", Nat.repr r.updatedRows),
         ("updatedRange", jsonStr r.updatedRange)], false, false⟩
     | .error e => catchResult tc e,
     [⟨.writeRange, spreadsheetId⟩])
  else if tc.name = "append_row" then
    (match svc.appendRow spreadsheetId tc.input.range tc.input.values
        (vioOrDefault tc.input.valueInputOption) with
     | .ok r => ⟨tc.id, jsonObj [("success", "true"),
         ("updatedCells", Nat.repr r.updatedCells),
         ("updatedRows", Nat.repr r.updatedRows),
         ("updatedRange", jsonStr r.updatedRange)], false, false⟩
     | .error e => catchResult tc e,
     [⟨.appendRow, spreadsheetId⟩])
  else if tc.name = "clear_range" then
    (match svc.clearRange spreadsheetId tc.input.range with
     | .ok r => ⟨tc.id, jsonObj [("success", "true"),
         ("clearedRange", jsonStr r.clearedRange)], false, false⟩
     | .error e => catchResult tc e,
     [⟨.clearRange, spreadsheetId⟩])
  else if tc.name = "create_chart" then
    (match svc.createChart spreadsheetId
        ⟨tc.input.chartType, tc.input.dataSourceRange, tc.input.title,
         tc.input.legendPosition, tc.input.position⟩ with
     | .ok r => ⟨tc.id, jsonObj [("success", "true"),
         ("chartId", Nat.repr r.chartId)], false, false⟩
     | .error e => catchResult tc e,
     [⟨.createChart, spreadsheetId⟩])
  else
    (unknownToolResult tc, [])

/-- `ToolCallHandler.handleToolCall`: a write-class name records the call
as pending and returns the `pending:true` echo outcome with
`requiresConfirmation` — no Sheets operation is invoked; any other name is
executed immediately via `executeToolCall`. -/
def handleToolCall (svc : SheetsModel) (tc : ToolCall) (spreadsheetId : String)
    (conv : Conversation) : ToolResult × Conversation × List SheetsCall :=
  if writeOperations.contains tc.name then
    (⟨tc.id, pendingContent tc, false, true⟩, conv.addPendingToolCall tc, [])
  else
    let rc := executeToolCall svc tc spreadsheetId
    (rc.1, conv, rc.2)

/-! ## ChatService: the agent loop -/

/-- A reasoning-engine response: content blocks plus a stop reason. -/
structure EngineResponse where
  content : List Block
  stop_reason : String
  deriving DecidableEq, Repr

/-- The reasoning-engine oracle, indexed by the request number (0 for the
initial request of a turn) and given the message list actually sent. -/
abbrev Engine := Nat → List Message → Except String EngineResponse

/-- A thrown engine call is rethrown as
`Failed to communicate with AI: <message or Unknown error>`. -/
def engineCall (engine : Engine) (idx : Nat) (msgs : List Message) :
    Except String EngineResponse :=
  match engine idx msgs with
  | .ok r => .ok r
  | .error e => .error ("Failed to communicate with AI: " ++ (if e = "" then "Unknown error" else e))

/-- The tool_use items of a response's content, in order. -/
def toolUseItems (content : List Block) : List ToolCall :=
  content.filterMap fun b =>
    match b with
    | .toolUse id name input => some ⟨id, name, input⟩
    | _ => none

/-- The tool_use block appended for a dispatched invocation. -/
def toolUseBlock (tc : ToolCall) : Block :=
  .toolUse tc.id tc.name tc.input

/-- The per-response text extraction: each text block is appended as its
own assistant message, before any invocation is handled. -/
def addTextMessages (conv : Conversation) (content : List Block) : Conversation :=
  content.foldl (fun c b =>
    match b with
    | .text t => c.addMessage ⟨.assistant, .blocks [.text t]⟩
    | _ => c) conv

/-- The per-response invocation handling of `continueConversation`: each
tool_use item goes through `handleToolCall`; when the outcome does not
require confirmation, the matched tool_use message and its tool_result
message (with the `What next?` continuation text) are appended
immediately; a pending write appends nothing. -/
def runToolUses (svc : SheetsModel) (spreadsheetId : String) :
    List ToolCall → Conversation → Conversation × List SheetsCall
  | [], conv => (conv, [])
  | tc :: rest, conv =>
    let handled := handleToolCall svc tc spreadsheetId conv
    let conv2 :=
      if handled.1.requiresConfirmation then handled.2.1
      else
        (handled.2.1.addMessage ⟨.assistant, .blocks [toolUseBlock tc]⟩).addMessage
          ⟨.user, .blocks [.toolResult tc.id handled.1.content, .text "What next?"]⟩
    let restRes := runToolUses svc spreadsheetId rest conv2
    (restRes.1, handled.2.2 ++ restRes.2)

/-- The user notice appended when the engine stops at `max_tokens`
(verbatim template literal of the source, including its indentation). -/
def maxTokensNotice : String :=
  "You hit the max tokens limit.\n              Please note that all tool calls you requested have been either executed or queued.\n              Please do not request these same tool calls again. Please request new tool calls as needed.\n              Please continue your response from where you left off."

/-- The `while (iterationCount < maxIterations)` loop of
`continueConversation`.  The first argument is the number of loop
iterations still allowed, `maxIterations - iterationCount` (10 on entry);
the guard `iterationCount < maxIterations` fails exactly when it reaches
0.  The remaining arguments: the number of engine requests already made
(also the index of the next request), the current response, the
conversation, and the Sheets trace so far.  Returns the final response,
conversation, engine request count and trace.  Each iteration appends the
response's text blocks, handles its invocations, breaks on
`tool_use`-with-pending or on `end_turn`, appends the continuation notice
on `max_tokens`, then recompacts the history and issues the next engine
request. -/
def agentLoop (engine : Engine) (summarizer : Summarizer) (svc : SheetsModel)
    (spreadsheetId : String) :
    Nat → Nat → EngineResponse → Conversation → List SheetsCall →
    Except String (EngineResponse × Conversation × Nat × List SheetsCall)
  | 0, engineCalls, resp, conv, trace => .ok (resp, conv, engineCalls, trace)
  | remaining + 1, engineCalls, resp, conv, trace =>
    let conv1 := addTextMessages conv resp.content
    let conv2 := (runToolUses svc spreadsheetId (toolUseItems resp.content) conv1).1
    let trace2 := trace ++ (runToolUses svc spreadsheetId (toolUseItems resp.content) conv1).2
    if resp.stop_reason = "tool_use" ∧ conv2.hasPendingToolCalls then
      .ok (resp, conv2, engineCalls, trace2)
    else if resp.stop_reason = "end_turn" then
      .ok (resp, conv2, engineCalls, trace2)
    else
      let conv3 :=
        if resp.stop_reason = "max_tokens" then
          conv2.addMessage ⟨.user, .blocks [.text maxTokensNotice]⟩
        else conv2
      match getMessagesForAPI conv3.messages summarizer with
      | .error e => .error e
      | .ok nextMessages =>
        match engineCall engine engineCalls nextMessages with
        | .error e => .error e
        | .ok resp2 =>
          agentLoop engine summarizer svc spreadsheetId
            remaining (engineCalls + 1) resp2 conv3 trace2

/-- The summary record of a pending invocation exposed to the caller in a
`confirmation_required` result. -/
structure PendingSummary where
  id : String
  operation : String
  range : Option String
  values : Option (List (List String))
  chartType : Option String
  dataSourceRange : Option String
  title : Option String
  deriving DecidableEq, Repr

def pendingSummaryOf (tc : ToolCall) : PendingSummary :=
  ⟨tc.id, tc.name, tc.input.range, tc.input.values, tc.input.chartType,
   tc.input.dataSourceRange, tc.input.title⟩

/-- The caller-facing result of one turn. -/
inductive TurnResult where
  | message (content : List Block) (conversationId : String)
  | confirmationRequired (pendingToolCalls : List PendingSummary)
      (content : List Block) (conversationId : String)
  deriving DecidableEq, Repr

/-- `ChatService.continueConversation` (latest revision): compact the
history, issue the initial engine request, run the agent loop; with
pending confirmations return `confirmation_required` with the full pending
set; otherwise append the final response content (unless the loop already
did, i.e. unless the stop reason is `end_turn` or the content is empty)
and return a `message` result.  Returns the turn result, the updated
conversation, the number of engine requests made, and the Sheets trace. -/
def continueConversation (engine : Engine) (summarizer : Summarizer) (svc : SheetsModel)
    (conv : Conversation) (spreadsheetId : String) :
    Except String (TurnResult × Conversation × Nat × List SheetsCall) :=
  match getMessagesForAPI conv.messages summarizer with
  | .error e => .error e
  | .ok messages =>
    match engineCall engine 0 messages with
    | .error e => .error e
    | .ok resp =>
      match agentLoop engine summarizer svc spreadsheetId 10 1 resp conv [] with
      | .error e => .error e
      | .ok (finalResp, conv1, engineCalls, trace) =>
        if conv1.hasPendingToolCalls then
          .ok (.confirmationRequired (conv1.getAllPendingToolCalls.map pendingSummaryOf)
                finalResp.content conv1.id, conv1, engineCalls, trace)
        else
          let conv2 :=
            if finalResp.stop_reason ≠ "end_turn" ∧ finalResp.content ≠ [] then
              conv1.addMessage ⟨.assistant, .blocks finalResp.content⟩
            else conv1
          .ok (.message finalResp.content conv2.id, conv2, engineCalls, trace)

/-! ## ConversationManager and the caller-facing operations -/

/-- `ConversationManager`: the keyed registry of conversations
(insertion-ordered `Map<string, Conversation>`). -/
structure Manager where
  conversations : List (String × Conversation)
  deriving DecidableEq, Repr

namespace Manager

/-- `ConversationManager.getConversation`. -/
def get (m : Manager) (id : String) : Option Conversation :=
  (m.conversations.find? fun p => p.1 = id).map (·.2)

/-- `ConversationManager.getOrCreateConversation`: create only when the id
is absent; always return the stored conversation.  Also returns the
(possibly extended) registry. -/
def getOrCreateConversation (m : Manager) (id spreadsheetId : String) :
    Conversation × Manager :=
  match m.get id with
  | some c => (c, m)
  | none =>
    let c := Conversation.mk0 id spreadsheetId
    (c, ⟨m.conversations ++ [(id, c)]⟩)

/-- Write back the (JS-mutated-in-place) conversation under its key. -/
def setConversation (m : Manager) (id : String) (c : Conversation) : Manager :=
  ⟨m.conversations.map fun p => if p.1 = id then (id, c) else p⟩

end Manager

/-- `ChatService.handleMessage`: validate the spreadsheet id and the
Sheets configuration, get or create the conversation (caller id or
`default`), append the user message and run `continueConversation` —
passing the caller-supplied spreadsheet id, not the one bound in the
conversation.  A thrown turn is rethrown as `Chat error: …` (the JS object
would retain partial mutations in that case; no claim concerns that
path, and the model returns only the error). -/
def handleMessage (engine : Engine) (summarizer : Summarizer) (svc : SheetsModel)
    (mgr : Manager) (message : String) (conversationId : Option String)
    (spreadsheetId : Option String) :
    Except String (TurnResult × Manager × Nat × List SheetsCall) :=
  let sid := spreadsheetId.getD ""
  if sid = "" then
    .error "Spreadsheet ID is required"
  else if !svc.configured then
    .error "Google Sheets service not configured. Please provide service account JSON."
  else
    let cid :=
      match conversationId with
      | none => "default"
      | some c => if c = "" then "default" else c
    let got := mgr.getOrCreateConversation cid sid
    let conv1 := got.1.addMessage ⟨.user, .blocks [.text message]⟩
    match continueConversation engine summarizer svc conv1 sid with
    | .ok (r, conv2, n, tr) => .ok (r, got.2.setConversation cid conv2, n, tr)
    | .error e => .error ("Chat error: " ++ e)

/-- The denial payload appended for a rejected pending invocation. -/
def deniedContent (pc : ToolCall) : String :=
  jsonObj ([("denied", "true"), ("operation", jsonStr pc.name)]
    ++ optStrField "range" pc.input.range
    ++ optCellsField "values" pc.input.values)

/-- The resolution loop of `confirmToolCalls`: for each resolved pending
call, append its tool_use message, then — denied — the synthetic
`denied by user` tool_result (no Sheets call), or — confirmed — execute it
against the conversation-bound spreadsheet id and append the real
tool_result. -/
def confirmLoop (svc : SheetsModel) (confirmed : Bool) :
    List ToolCall → Conversation → Conversation × List SheetsCall
  | [], conv => (conv, [])
  | pc :: rest, conv =>
    let conv1 := conv.addMessage ⟨.assistant, .blocks [toolUseBlock pc]⟩
    let step : Conversation × List SheetsCall :=
      if !confirmed then
        (conv1.addMessage ⟨.user, .blocks [.toolResult pc.id (deniedContent pc),
          .text "I do not want to proceed with this tool call."]⟩, [])
      else
        (conv1.addMessage ⟨.user, .blocks
          [.toolResult pc.id (executeToolCall svc pc conv1.spreadsheetId).1.content]⟩,
         (executeToolCall svc pc conv1.spreadsheetId).2)
    let restRes := confirmLoop svc confirmed rest step.1
    (restRes.1, step.2 ++ restRes.2)

/-- The conversation state produced by `confirmToolCalls` after resolving
the pending calls selected by `toolCallIds`: the ids are cleared and the
resolution loop has appended its message pairs. -/
def resolvedConversation (svc : SheetsModel) (confirmed : Bool) (conv : Conversation)
    (toolCallIds : List String) : Conversation :=
  (confirmLoop svc confirmed (conv.getPendingToolCalls toolCallIds)
    (conv.clearPendingToolCalls toolCallIds)).1

/-- The caller-facing result of `confirmToolCalls` (latest revision): a
success record carrying the remaining pending set. -/
structure ConfirmResult where
  success : Bool
  conversationId : String
  hasMorePendingCalls : Bool
  pendingToolCalls : List PendingSummary
  deriving DecidableEq, Repr

/-- `ChatService.confirmToolCalls` (latest revision): look up the
conversation, resolve the given ids (throwing when none are pending),
clear them, run the resolution loop, and return the success record — the
function issues no reasoning-engine request, which the third component
(the engine request count, always 0 here) records for comparison with the
specification. -/
def confirmToolCalls (svc : SheetsModel) (mgr : Manager) (conversationId : String)
    (toolCallIds : List String) (confirmed : Bool) :
    Except String (ConfirmResult × Manager × Nat × List SheetsCall) :=
  match mgr.get conversationId with
  | none => .error "Conversation not found"
  | some conv =>
    if (conv.getPendingToolCalls toolCallIds).isEmpty then
      .error "No pending tool calls found"
    else
      .ok (⟨true, (resolvedConversation svc confirmed conv toolCallIds).id,
            (resolvedConversation svc confirmed conv toolCallIds).hasPendingToolCalls,
            if (resolvedConversation svc confirmed conv toolCallIds).hasPendingToolCalls then
              (resolvedConversation svc confirmed conv toolCallIds).getAllPendingToolCalls.map
                pendingSummaryOf
            else []⟩,
           mgr.setConversation conversationId (resolvedConversation svc confirmed conv toolCallIds),
           0,
           (confirmLoop svc confirmed (conv.getPendingToolCalls toolCallIds)
             (conv.clearPendingToolCalls toolCallIds)).2)

/-! ## Predicates used to state the claims -/

/-- A message whose first content block is a tool_use block (the
granularity at which `validateToolUsePairs` classifies messages). -/
def isToolUseFirst (m : Message) : Bool :=
  match m.content with
  | .blocks (Block.toolUse .. :: _) => true
  | _ => false

/-- A message whose first content block is a tool_result block. -/
def isToolResultFirst (m : Message) : Bool :=
  match m.content with
  | .blocks (Block.toolResult .. :: _) => true
  | _ => false

/-- The id of a leading tool_use block (`""` otherwise). -/
def leadUseId (m : Message) : String :=
  match m.content with
  | .blocks (Block.toolUse id _ _ :: _) => id
  | _ => ""

/-- The `tool_use_id` of a leading tool_result block (`""` otherwise). -/
def leadResultId (m : Message) : String :=
  match m.content with
  | .blocks (Block.toolResult tuId _ :: _) => tuId
  | _ => ""

/-- The pairing invariant at message granularity: every tool_use-first
message is immediately followed by exactly one tool_result-first message
with a matching id (and the scan resumes after the pair, so that the
tool_result belongs to exactly this tool_use), and no tool_result-first
message occurs except as the second element of such a pair — equivalently,
every tool_result-first message is immediately preceded by its matching
tool_use-first message. -/
def wellPairedChain : List Message → Bool
  | [] => true
  | [m] => !isToolUseFirst m && !isToolResultFirst m
  | m :: next :: rest2 =>
    if isToolUseFirst m then
      isToolResultFirst next && leadUseId m == leadResultId next && wellPairedChain rest2
    else if isToolResultFirst m then false
    else wellPairedChain (next :: rest2)

/-- The messages appended to the log by `continueConversation` for one
dispatched tool invocation: nothing for a write-class name (it only
becomes pending), and the contiguous tool_use/tool_result pair (with the
continuation text) for any other name. -/
def dispatchAppends (svc : SheetsModel) (spreadsheetId : String) (tc : ToolCall) :
    List Message :=
  if writeOperations.contains tc.name then []
  else
    [⟨.assistant, .blocks [toolUseBlock tc]⟩,
     ⟨.user, .blocks [.toolResult tc.id (executeToolCall svc tc spreadsheetId).1.content,
       .text "What next?"]⟩]

/-- The contiguous message pair appended by `confirmToolCalls` for one
resolved pending invocation: its tool_use message, then the synthetic
denial tool_result (denied) or the real execution tool_result
(confirmed). -/
def resolutionPair (svc : SheetsModel) (confirmed : Bool) (spreadsheetId : String)
    (pc : ToolCall) : List Message :=
  [⟨.assistant, .blocks [toolUseBlock pc]⟩,
   if !confirmed then
     ⟨.user, .blocks [.toolResult pc.id (deniedContent pc),
       .text "I do not want to proceed with this tool call."]⟩
   else
     ⟨.user, .blocks [.toolResult pc.id (executeToolCall svc pc spreadsheetId).1.content]⟩]

/-! ## Concrete fixtures for witnesses and counterexamples -/

/-- A one-character user text message (51 estimated tokens). -/
def msgX : Message := ⟨.user, .blocks [.text "x"]⟩

/-- 49 small text messages: 2499 estimated tokens, over the 2404 budget. -/
def log3 : List Message := List.replicate 49 msgX

/-- A summarizer whose engine call always throws. -/
def errSummarizer : Summarizer := fun _ => .error "API Error"

/-- A summarizer whose response contains no text blocks. -/
def emptySummarizer : Summarizer := fun _ => .ok []

/-- An assistant message whose only block is a tool_use block. -/
def useMsg : Message := ⟨.assistant, .blocks [.toolUse "tu1" "read_range" {}]⟩

/-- A log whose compacted suffix ends with a tool_use-first message. -/
def log7b : List Message := List.replicate 45 msgX ++ [useMsg]

/-- An assistant message whose first block is text but whose second block
is a (write-class) tool_use block. -/
def mixedMsg : Message := ⟨.assistant, .blocks [.text "x", .toolUse "tu1" "write_range" {}]⟩

/-- A log over budget whose kept suffix retains `mixedMsg`. -/
def log2c : List Message := List.replicate 45 msgX ++ [mixedMsg]

/-- A Sheets oracle on which every operation succeeds. -/
def stubSvc : SheetsModel where
  configured := true
  readRange := fun _ _ => .ok ⟨[["1", "2"]], "A1:B2"⟩
  writeRange := fun _ _ _ _ => .ok ⟨2, 1, "A1:B1"⟩
  appendRow := fun _ _ _ _ => .ok ⟨2, 1, "A2:B2"⟩
  clearRange := fun _ _ => .ok ⟨"A1:B2"⟩
  createChart := fun _ _ => .ok ⟨7⟩

/-- A Sheets oracle whose read operation throws. -/
def errSvc : SheetsModel where
  configured := true
  readRange := fun _ _ => .error "Invalid range"
  writeRange := fun _ _ _ _ => .ok ⟨2, 1, "A1:B1"⟩
  appendRow := fun _ _ _ _ => .ok ⟨2, 1, "A2:B2"⟩
  clearRange := fun _ _ => .ok ⟨"A1:B2"⟩
  createChart := fun _ _ => .ok ⟨7⟩

/-- An engine that answers every request with `stop_reason = tool_use` and
empty content. -/
def loopEngine : Engine := fun _ _ => .ok ⟨[], "tool_use"⟩

/-- A fresh conversation. -/
def conv0 : Conversation := Conversation.mk0 "c1" "s1"

def wInput : ToolInput := { range := some "A1:B1", values := some [["5"]] }

/-- A write-class tool invocation. -/
def wTc : ToolCall := ⟨"w1", "write_range", wInput⟩

def readInput : ToolInput := { range := some "A1:B2" }

/-- A read-class tool invocation. -/
def rTc : ToolCall := ⟨"r1", "read_range", readInput⟩

/-- An engine that answers `tool_use` with empty content ten times and
then emits a write-class tool_use block (which the loop never
processes). -/
def capEngine : Engine := fun n _ =>
  if n < 10 then .ok ⟨[], "tool_use"⟩
  else .ok ⟨[.toolUse "w1" "write_range" wInput], "tool_use"⟩

/-- An engine requesting one read, then ending the turn. -/
def c10Engine : Engine := fun n _ =>
  if n = 0 then .ok ⟨[.toolUse "r1" "read_range" readInput], "tool_use"⟩
  else .ok ⟨[.text "done"], "end_turn"⟩

/-- A registry holding one conversation bound to spreadsheet `sheetA`. -/
def mgrA : Manager := (Manager.getOrCreateConversation ⟨[]⟩ "c1" "sheetA").2

/-- A conversation with one pending write invocation. -/
def convP : Conversation :=
  { Conversation.mk0 "c1" "sheetA" with pendingToolCalls := [("w1", wTc)] }

/-- A registry holding `convP`. -/
def mgrP : Manager := ⟨[("c1", convP)]⟩

/-- A tool invocation whose name matches no switch case. -/
def uTc : ToolCall := ⟨"u1", "bogus_tool", {}⟩

end Tab2

namespace Tab2

/-! ## Lemmas -/


/-- A message's `getMessageType` is `tool_use` exactly when its first block is a tool_use block. -/
theorem type_toolUse_iff {m : Message} :
    getMessageType m = .ok "tool_use" ↔ isToolUseFirst m = true := by
  rcases m with ⟨role, content⟩
  rcases content with s | bs
  · simp [getMessageType, isToolUseFirst]
  · rcases bs with _ | ⟨b, tl⟩
    · simp [getMessageType, isToolUseFirst]
    · cases b <;> simp [getMessageType, isToolUseFirst, Block.typeName]

/-- A message's `getMessageType` is `tool_result` exactly when its first block is a tool_result block. -/
theorem type_toolResult_iff {m : Message} :
    getMessageType m = .ok "tool_result" ↔ isToolResultFirst m = true := by
  rcases m with ⟨role, content⟩
  rcases content with s | bs
  · simp [getMessageType, isToolResultFirst]
  · rcases bs with _ | ⟨b, tl⟩
    · simp [getMessageType, isToolResultFirst]
    · cases b <;> simp [getMessageType, isToolResultFirst, Block.typeName]

/-- On a tool_use-first message, `getMessageId` returns the leading block's id. -/
theorem id_of_toolUse {m : Message} (h : getMessageType m = .ok "tool_use") :
    getMessageId m = .ok (leadUseId m) := by
  rcases m with ⟨role, content⟩
  rcases content with s | bs
  · simp [getMessageType] at h
  · rcases bs with _ | ⟨b, tl⟩
    · simp [getMessageType] at h
    · cases b <;> simp_all [getMessageType, getMessageId, leadUseId, Block.typeName]

/-- On a tool_result-first message, `getMessageId` returns the leading block's `tool_use_id`. -/
theorem id_of_toolResult {m : Message} (h : getMessageType m = .ok "tool_result") :
    getMessageId m = .ok (leadResultId m) := by
  rcases m with ⟨role, content⟩
  rcases content with s | bs
  · simp [getMessageType] at h
  · rcases bs with _ | ⟨b, tl⟩
    · simp [getMessageType] at h
    · cases b <;> simp_all [getMessageType, getMessageId, leadResultId, Block.typeName]

/-- A message typed neither `tool_use` nor `tool_result` is neither tool_use-first nor tool_result-first. -/
theorem notFirst_of_type {m : Message} {ty : String} (h : getMessageType m = .ok ty)
    (h1 : ty ≠ "tool_use") (h2 : ty ≠ "tool_result") :
    isToolUseFirst m = false ∧ isToolResultFirst m = false := by
  constructor
  · by_contra hb
    simp only [Bool.not_eq_false] at hb
    exact h1 (Except.ok.inj (h.symm.trans (type_toolUse_iff.mpr hb)))
  · by_contra hb
    simp only [Bool.not_eq_false] at hb
    exact h2 (Except.ok.inj (h.symm.trans (type_toolResult_iff.mpr hb)))

/-- Prepending a plain message (neither tool_use- nor tool_result-first) preserves the pairing chain. -/
theorem chain_cons_plain {m : Message} {v : List Message}
    (h1 : isToolUseFirst m = false) (h2 : isToolResultFirst m = false) :
    wellPairedChain (m :: v) = wellPairedChain v := by
  rcases v with _ | ⟨w, ws⟩
  · simp [wellPairedChain, h1, h2]
  · simp [wellPairedChain, h1, h2]

/-- Auxiliary strong induction: the validated output is a sublist of the input. -/
theorem validate_sublist_aux : ∀ (n : Nat) (l : List Message), l.length ≤ n →
    ∀ v, validateToolUsePairs l = .ok v → v.Sublist l := by
  intro n
  induction n with
  | zero =>
    intro l hl v hv
    have hl0 : l = [] := List.eq_nil_of_length_eq_zero (Nat.le_zero.mp hl)
    subst hl0
    simp [validateToolUsePairs] at hv
    subst hv
    exact List.nil_sublist _
  | succ n ih =>
    intro l hl v hv
    rcases l with _ | ⟨msg, _ | ⟨next, rest2⟩⟩
    · simp [validateToolUsePairs] at hv
      subst hv
      exact List.nil_sublist _
    · simp only [validateToolUsePairs] at hv
      split at hv
      · exact absurd hv (by simp)
      · exact absurd hv (by simp)
      · split at hv
        · exact absurd hv (by simp)
        · split at hv
          · simp only [Except.ok.injEq] at hv
            subst hv
            exact List.nil_sublist _
          · split at hv
            · simp only [Except.ok.injEq] at hv
              subst hv
              exact List.Sublist.refl _
            · simp only [Except.ok.injEq] at hv
              subst hv
              exact List.nil_sublist _
    · simp only [validateToolUsePairs] at hv
      split at hv
      · exact absurd hv (by simp)
      · exact absurd hv (by simp)
      · rename_i ty mid hty hmid
        split at hv
        · split at hv
          · exact absurd hv (by simp)
          · exact absurd hv (by simp)
          · rename_i nty nid hnty hnid
            split at hv
            · split at hv
              · exact absurd hv (by simp)
              · rename_i v2 hv2
                simp only [Except.ok.injEq] at hv
                subst hv
                have h2 : rest2.length ≤ n := by
                  simp at hl; omega
                exact (ih rest2 h2 v2 hv2).cons₂ next |>.cons₂ msg
            · have h2 : (next :: rest2).length ≤ n := by simp at hl ⊢; omega
              exact (ih _ h2 v hv).cons msg
        · split at hv
          · have h2 : (next :: rest2).length ≤ n := by simp at hl ⊢; omega
            exact (ih _ h2 v hv).cons msg
          · split at hv
            · split at hv
              · exact absurd hv (by simp)
              · rename_i v2 hv2
                simp only [Except.ok.injEq] at hv
                subst hv
                have h2 : (next :: rest2).length ≤ n := by simp at hl ⊢; omega
                exact (ih _ h2 v2 hv2).cons₂ msg
            · have h2 : (next :: rest2).length ≤ n := by simp at hl ⊢; omega
              exact (ih _ h2 v hv).cons msg

/-- `validateToolUsePairs` returns an in-order sublist of its input. -/
theorem validate_sublist {l v : List Message} (h : validateToolUsePairs l = .ok v) :
    v.Sublist l :=
  validate_sublist_aux l.length l (Nat.le_refl _) v h

/-- Auxiliary strong induction: the validated output satisfies the pairing chain. -/
theorem validate_chain_aux : ∀ (n : Nat) (l : List Message), l.length ≤ n →
    ∀ v, validateToolUsePairs l = .ok v → wellPairedChain v = true := by
  intro n
  induction n with
  | zero =>
    intro l hl v hv
    have hl0 : l = [] := List.eq_nil_of_length_eq_zero (Nat.le_zero.mp hl)
    subst hl0
    simp [validateToolUsePairs] at hv
    subst hv
    rfl
  | succ n ih =>
    intro l hl v hv
    rcases l with _ | ⟨msg, _ | ⟨next, rest2⟩⟩
    · simp [validateToolUsePairs] at hv
      subst hv
      rfl
    · simp only [validateToolUsePairs] at hv
      split at hv
      · exact absurd hv (by simp)
      · exact absurd hv (by simp)
      · rename_i ty mid hty hmid
        split at hv
        · exact absurd hv (by simp)
        · split at hv
          · simp only [Except.ok.injEq] at hv
            subst hv
            rfl
          · split at hv
            · rename_i hne1 hne2 htext
              simp only [Except.ok.injEq] at hv
              subst hv
              have hplain := @notFirst_of_type _ ty hty
                (fun h => hne1 h) (fun h => hne2 h)
              simp [wellPairedChain, hplain.1, hplain.2]
            · simp only [Except.ok.injEq] at hv
              subst hv
              rfl
    · simp only [validateToolUsePairs] at hv
      split at hv
      · exact absurd hv (by simp)
      · exact absurd hv (by simp)
      · rename_i ty mid hty hmid
        split at hv
        · rename_i htu
          split at hv
          · exact absurd hv (by simp)
          · exact absurd hv (by simp)
          · rename_i nty nid hnty hnid
            split at hv
            · rename_i hcond
              obtain ⟨hntr, hids⟩ := hcond
              split at hv
              · exact absurd hv (by simp)
              · rename_i v2 hv2
                simp only [Except.ok.injEq] at hv
                subst hv
                subst htu
                subst hntr
                have huse : isToolUseFirst msg = true := type_toolUse_iff.mp hty
                have hres : isToolResultFirst next = true := type_toolResult_iff.mp hnty
                have hidm : leadUseId msg = mid :=
                  Except.ok.inj ((id_of_toolUse hty).symm.trans hmid)
                have hidn : leadResultId next = nid :=
                  Except.ok.inj ((id_of_toolResult hnty).symm.trans hnid)
                have h2 : rest2.length ≤ n := by simp at hl; omega
                have hchain := ih rest2 h2 v2 hv2
                simp [wellPairedChain, huse, hres, hidm, hidn, hids, hchain]
            · have h2 : (next :: rest2).length ≤ n := by simp at hl ⊢; omega
              exact ih _ h2 v hv
        · split at hv
          · have h2 : (next :: rest2).length ≤ n := by simp at hl ⊢; omega
            exact ih _ h2 v hv
          · split at hv
            · rename_i hne1 hne2 htext
              split at hv
              · exact absurd hv (by simp)
              · rename_i v2 hv2
                simp only [Except.ok.injEq] at hv
                subst hv
                have h2 : (next :: rest2).length ≤ n := by simp at hl ⊢; omega
                have hchain := ih _ h2 v2 hv2
                have hplain := @notFirst_of_type _ ty hty
                  (fun h => hne1 h) (fun h => hne2 h)
                rw [chain_cons_plain hplain.1 hplain.2]
                exact hchain
            · have h2 : (next :: rest2).length ≤ n := by simp at hl ⊢; omega
              exact ih _ h2 v hv

/-- Every successful `validateToolUsePairs` output satisfies the message-level pairing invariant. -/
theorem validate_chain {l v : List Message} (h : validateToolUsePairs l = .ok v) :
    wellPairedChain v = true :=
  validate_chain_aux l.length l (Nat.le_refl _) v h

/-- The token budget is positive. -/
theorem budget_pos : 0 < maxAllowedTokens := by decide

/-- The backwards accumulation keeps the running total strictly below the budget. -/
theorem keepWithinBudget_lt : ∀ (l : List Message) (acc : Nat), acc < maxAllowedTokens →
    acc + estimateTotalTokens (keepWithinBudget acc l) < maxAllowedTokens := by
  intro l
  induction l with
  | nil => intro acc h; simpa [keepWithinBudget, estimateTotalTokens]
  | cons m rest ih =>
    intro acc h
    by_cases hc : acc + estimateTokens m < maxAllowedTokens
    · simp only [keepWithinBudget, if_pos hc, estimateTotalTokens, List.map_cons, List.sum_cons]
      have := ih (acc + estimateTokens m) hc
      simp only [estimateTotalTokens] at this
      omega
    · simp only [keepWithinBudget, if_neg hc, estimateTotalTokens, List.map_nil, List.sum_nil]
      omega

/-- Token totals are invariant under list reversal. -/
theorem estimateTotal_reverse (l : List Message) :
    estimateTotalTokens l.reverse = estimateTotalTokens l := by
  simp [estimateTotalTokens, List.map_reverse, List.sum_reverse]

/-- The kept suffix estimates strictly below the budget. -/
theorem collectLatest_lt (log : List Message) :
    estimateTotalTokens (collectLatest log) < maxAllowedTokens := by
  have h := keepWithinBudget_lt log.reverse 0 budget_pos
  simpa [collectLatest, estimateTotal_reverse] using h

/-- A sublist never estimates more tokens than the full list. -/
theorem sublist_tokens_le {v l : List Message} (h : v.Sublist l) :
    estimateTotalTokens v ≤ estimateTotalTokens l := by
  induction h with
  | slnil => exact Nat.le_refl _
  | cons a h ih => simp only [estimateTotalTokens, List.map_cons, List.sum_cons] at *; omega
  | cons₂ a h ih => simp only [estimateTotalTokens, List.map_cons, List.sum_cons] at *; omega

/-- Any summary message produced by `generateSummaryMessage` is a user message with string content. -/
theorem generateSummary_shape {msgs : List Message} {s : Summarizer} {m : Message}
    (h : generateSummaryMessage msgs s = .ok (some m)) :
    ∃ t, m = ⟨.user, .str t⟩ := by
  unfold generateSummaryMessage at h
  split at h
  · exact absurd h (by simp)
  · split at h
    · simp only [Except.ok.injEq, Option.some.injEq] at h
      exact ⟨_, h.symm⟩
    · simp only at h
      repeat' split at h
      all_goals
        first
          | (simp only [Except.ok.injEq, Option.some.injEq] at h; exact ⟨_, h.symm⟩)
          | exact absurd h (by simp)

/-- A string-content message is neither tool_use-first nor tool_result-first. -/
theorem strContent_notFirst (r : Role) (t : String) :
    isToolUseFirst ⟨r, .str t⟩ = false ∧ isToolResultFirst ⟨r, .str t⟩ = false := by
  exact ⟨rfl, rfl⟩





/-- With a shorter validated suffix, the excluded prefix is the corresponding `take`. -/
theorem excluded_eq {log : List Message} {vl : Nat} (h : vl < log.length) :
    excludedMessages log vl = log.take (log.length - vl) := by
  unfold excludedMessages
  rw [if_pos (by omega)]

/-- Length of the excluded prefix. -/
theorem excluded_len {log : List Message} {vl : Nat} (h : vl < log.length) :
    (excludedMessages log vl).length = log.length - vl := by
  rw [excluded_eq h]
  simp [List.length_take]

/-- When the summarization engine call throws, `generateSummaryMessage` returns the deterministic placeholder for the full excluded count and does not propagate the error. -/
theorem generateSummary_error (msgs : List Message) (s : Summarizer) (w : List Message)
    (e : String)
    (hw : validateToolUsePairs (selectForSummary (500 + 4096) msgs) = .ok w)
    (he : s (w ++ [promptMessage]) = .error e) :
    generateSummaryMessage msgs s =
      .ok (some ⟨.user, .str (placeholderText msgs.length)⟩) := by
  unfold generateSummaryMessage
  split
  · rename_i e2 heq
    rw [hw] at heq
    cases heq
  · rename_i ms heq
    have hms : ms = w := (Except.ok.inj (hw.symm.trans heq)).symm
    subst hms
    split
    · rfl
    · rename_i bs heq2
      rw [he] at heq2
      cases heq2

/-- When the summarization response has no text output, `generateSummaryMessage` returns `none`: no placeholder is substituted. -/
theorem generateSummary_noText (msgs : List Message) (s : Summarizer) (w : List Message)
    (bs : List Block)
    (hw : validateToolUsePairs (selectForSummary (500 + 4096) msgs) = .ok w)
    (hbs : s (w ++ [promptMessage]) = .ok bs)
    (hempty : bs.filterMap Block.textOf = []) :
    generateSummaryMessage msgs s = .ok none := by
  unfold generateSummaryMessage
  split
  · rename_i e2 heq
    rw [hw] at heq
    cases heq
  · rename_i ms heq
    have hms : ms = w := (Except.ok.inj (hw.symm.trans heq)).symm
    subst hms
    split
    · rename_i e2 heq2
      rw [hbs] at heq2
      cases heq2
    · rename_i bs2 heq2
      have hb : bs2 = bs := (Except.ok.inj (hbs.symm.trans heq2)).symm
      subst hb
      rw [hempty]
      rfl

/-- The compaction branch of `getMessagesForAPI`, expressed through the summary result. -/
theorem getMessagesForAPI_compact (log : List Message) (s : Summarizer) (v : List Message)
    (hbig : maxAllowedTokens < estimateTotalTokens log)
    (hv : validateToolUsePairs (collectLatest log) = .ok v)
    (hexc : v.length < log.length) :
    getMessagesForAPI log s =
      match generateSummaryMessage (log.take (log.length - v.length)) s with
      | .error e => .error e
      | .ok (some m) => .ok (m :: v)
      | .ok none => .ok v := by
  unfold getMessagesForAPI
  rw [if_neg (by omega)]
  split
  · rename_i e heq
    rw [hv] at heq
    cases heq
  · rename_i v2 heq
    have hvv : v2 = v := (Except.ok.inj (hv.symm.trans heq)).symm
    subst hvv
    rw [if_pos (by rw [excluded_len hexc]; omega), excluded_eq hexc]

/-- The compaction branch when validation dropped nothing (no excluded prefix). -/
theorem getMessagesForAPI_compact_noexc (log : List Message) (s : Summarizer)
    (v : List Message)
    (hbig : maxAllowedTokens < estimateTotalTokens log)
    (hv : validateToolUsePairs (collectLatest log) = .ok v)
    (hexc : log.length ≤ v.length) :
    getMessagesForAPI log s = .ok v := by
  unfold getMessagesForAPI
  rw [if_neg (by omega)]
  split
  · rename_i e heq
    rw [hv] at heq
    cases heq
  · rename_i v2 heq
    have hvv : v2 = v := (Except.ok.inj (hv.symm.trans heq)).symm
    subst hvv
    rw [if_neg (by unfold excludedMessages; rw [if_neg (by omega)]; simp)]

/-- C2 (corrected): in every message sequence produced when compaction
triggers, classifying each message by its FIRST content block (as the code
does), every tool_use-first message is immediately followed by exactly one
tool_result-first message with matching id and vice versa; unpaired or
mismatched messages are dropped.  (The original block-level claim fails:
tool blocks after the first position are never examined — see the
counterexample.) -/
theorem pairing_invariant_compacted (log : List Message) (s : Summarizer)
    (out : List Message) (hbig : maxAllowedTokens < estimateTotalTokens log)
    (hout : getMessagesForAPI log s = .ok out) :
    wellPairedChain out = true := by
  cases hv : validateToolUsePairs (collectLatest log) with
  | error e =>
    unfold getMessagesForAPI at hout
    rw [if_neg (by omega), hv] at hout
    cases hout
  | ok v =>
    by_cases hexc : v.length < log.length
    · rw [getMessagesForAPI_compact log s v hbig hv hexc] at hout
      split at hout
      · cases hout
      · rename_i m hsum
        have hm := Except.ok.inj hout
        subst hm
        obtain ⟨t, rfl⟩ := generateSummary_shape hsum
        rw [chain_cons_plain (strContent_notFirst .user t).1 (strContent_notFirst .user t).2]
        exact validate_chain hv
      · have hm := Except.ok.inj hout
        subst hm
        exact validate_chain hv
    · rw [getMessagesForAPI_compact_noexc log s v hbig hv (by omega)] at hout
      have hm := Except.ok.inj hout
      subst hm
      exact validate_chain hv

/-- C3 (corrected): when the estimate is within budget the log is returned
unchanged; when compaction triggers, the returned sequence is the validated
kept suffix, whose estimate is strictly below the budget, possibly with one
summary message prepended — the prepended summary is NOT counted against
the budget and can push the returned total above it (see the
counterexample). -/
theorem budget_invariant (log : List Message) (s : Summarizer) :
    (estimateTotalTokens log ≤ maxAllowedTokens → getMessagesForAPI log s = .ok log) ∧
    (∀ v out, maxAllowedTokens < estimateTotalTokens log →
      validateToolUsePairs (collectLatest log) = .ok v →
      getMessagesForAPI log s = .ok out →
      estimateTotalTokens v < maxAllowedTokens ∧ (out = v ∨ ∃ m, out = m :: v)) := by
  constructor
  · intro h
    unfold getMessagesForAPI
    rw [if_pos h]
  · intro v out hbig hv hout
    have htok : estimateTotalTokens v < maxAllowedTokens :=
      Nat.lt_of_le_of_lt (sublist_tokens_le (validate_sublist hv)) (collectLatest_lt log)
    refine ⟨htok, ?_⟩
    by_cases hexc : v.length < log.length
    · rw [getMessagesForAPI_compact log s v hbig hv hexc] at hout
      split at hout
      · cases hout
      · rename_i m hsum
        exact Or.inr ⟨m, (Except.ok.inj hout).symm⟩
      · exact Or.inl (Except.ok.inj hout).symm
    · rw [getMessagesForAPI_compact_noexc log s v hbig hv (by omega)] at hout
      exact Or.inl (Except.ok.inj hout).symm

/-- C7 (corrected): when compaction triggers with a nonempty excluded
prefix, a thrown summarization call is caught and replaced by the
deterministic placeholder stating the excluded-message count; but a
response with no text output yields NO summary message at all (no
placeholder), and compaction can throw a TypeError when a validation pass
ends at an unpaired tool_use message (see the counterexample). -/
theorem summary_failure (log : List Message) (s : Summarizer) (v w : List Message)
    (hbig : maxAllowedTokens < estimateTotalTokens log)
    (hv : validateToolUsePairs (collectLatest log) = .ok v)
    (hexc : v.length < log.length)
    (hw : validateToolUsePairs
      (selectForSummary (500 + 4096) (log.take (log.length - v.length))) = .ok w) :
    (∀ e, s (w ++ [promptMessage]) = .error e →
      getMessagesForAPI log s =
        .ok (⟨.user, .str (placeholderText (log.length - v.length))⟩ :: v)) ∧
    (∀ bs, s (w ++ [promptMessage]) = .ok bs → bs.filterMap Block.textOf = [] →
      getMessagesForAPI log s = .ok v) := by
  have hlen : (log.take (log.length - v.length)).length = log.length - v.length := by
    simp only [List.length_take]
    omega
  constructor
  · intro e he
    rw [getMessagesForAPI_compact log s v hbig hv hexc,
       generateSummary_error _ s w e hw he, hlen]
  · intro bs hbs hempty
    rw [getMessagesForAPI_compact log s v hbig hv hexc,
       generateSummary_noText _ s w bs hw hbs hempty]



/-- The loop makes at most `remaining` further engine requests. -/
theorem agentLoop_calls_le (engine : Engine) (s : Summarizer) (svc : SheetsModel)
    (sid : String) : ∀ (remaining engineCalls : Nat) (resp : EngineResponse)
    (conv : Conversation) (trace : List SheetsCall)
    (res : EngineResponse × Conversation × Nat × List SheetsCall),
    agentLoop engine s svc sid remaining engineCalls resp conv trace = .ok res →
    res.2.2.1 ≤ engineCalls + remaining := by
  intro remaining
  induction remaining with
  | zero =>
    intro ec resp conv tr res h
    simp only [agentLoop] at h
    have hres := Except.ok.inj h
    subst hres
    simp
  | succ rem ih =>
    intro ec resp conv tr res h
    simp only [agentLoop] at h
    repeat' split at h
    all_goals
      first
        | (have hres := Except.ok.inj h; subst hres; exact Nat.le_add_right ec (rem + 1))
        | (have hrec := ih _ _ _ _ _ h; omega)
        | exact absurd h (by simp)

/-- Under an engine that always answers `tool_use` with empty content, each loop iteration leaves the conversation unchanged and burns one request, until the cap. -/
theorem agentLoop_const (engine : Engine) (s : Summarizer) (svc : SheetsModel) (sid : String)
    (conv : Conversation) (ms : List Message)
    (he : ∀ n msgs, engine n msgs = .ok ⟨[], "tool_use"⟩)
    (hp : conv.pendingToolCalls = [])
    (hm : getMessagesForAPI conv.messages s = .ok ms) :
    ∀ remaining engineCalls trace,
      agentLoop engine s svc sid remaining engineCalls ⟨[], "tool_use"⟩ conv trace =
        .ok (⟨[], "tool_use"⟩, conv, engineCalls + remaining, trace) := by
  intro remaining
  induction remaining with
  | zero => intro ec tr; simp [agentLoop]
  | succ rem ih =>
    intro ec tr
    rw [agentLoop, show ec + (rem + 1) = ec + 1 + rem from by omega]
    simp only [addTextMessages, List.foldl_nil, toolUseItems, List.filterMap_nil,
      runToolUses, List.append_nil, Conversation.hasPendingToolCalls, hp, List.isEmpty_nil,
      Bool.not_true]
    simp
    rw [hm]
    simp only [engineCall, he]
    exact ih (ec + 1) tr



/-- C6 (corrected): the loop executes at most 10 iterations — any
successful turn makes at most 11 engine requests (1 initial + 10 in-loop) —
and when the engine keeps answering `stop_reason = tool_use` (with no
write pending), the turn ends at the cap by returning a NORMAL `message`
result carrying the last response content, not by surfacing an error (see
the counterexample). -/
theorem iteration_cap_theorem :
    (∀ (engine : Engine) (s : Summarizer) (svc : SheetsModel) (conv : Conversation)
       (sid : String) (res : TurnResult × Conversation × Nat × List SheetsCall),
       continueConversation engine s svc conv sid = .ok res → res.2.2.1 ≤ 11) ∧
    (∀ (engine : Engine) (s : Summarizer) (svc : SheetsModel) (conv : Conversation)
       (sid : String) (ms : List Message),
       (∀ n msgs, engine n msgs = .ok ⟨[], "tool_use"⟩) →
       conv.pendingToolCalls = [] →
       getMessagesForAPI conv.messages s = .ok ms →
       continueConversation engine s svc conv sid =
         .ok (.message [] conv.id, conv, 11, [])) := by
  constructor
  · intro engine s svc conv sid res h
    unfold continueConversation at h
    split at h
    · cases h
    · split at h
      · cases h
      · split at h
        · cases h
        · rename_i finalResp conv1 engineCalls trace ho
          have hcap := agentLoop_calls_le engine s svc sid 10 1 _ _ _ _ ho
          repeat' split at h
          all_goals
            (have hres := Except.ok.inj h; subst hres; simp at hcap ⊢; omega)
  · intro engine s svc conv sid ms he hp hm
    unfold continueConversation
    rw [hm]
    simp only [engineCall, he]
    rw [agentLoop_const engine s svc sid conv ms he hp hm 10 1 []]
    simp [Conversation.hasPendingToolCalls, hp]



/-- C1 (confirmed): a write-class tool invocation is recorded as pending
and answered with `requiresConfirmation = true` without any Sheets call;
a `read_range` invocation always performs exactly the `readRange` Sheets
call (whether it succeeds or throws) and requires no confirmation. -/
theorem confirmation_gating (svc : SheetsModel) (tc : ToolCall) (sid : String)
    (conv : Conversation) :
    (writeOperations.contains tc.name = true →
      handleToolCall svc tc sid conv =
        (⟨tc.id, pendingContent tc, false, true⟩, conv.addPendingToolCall tc, [])) ∧
    (tc.name = "read_range" →
      (handleToolCall svc tc sid conv).2.2 = [⟨.readRange, sid⟩] ∧
      (handleToolCall svc tc sid conv).1.requiresConfirmation = false) := by
  constructor
  · intro hw
    unfold handleToolCall
    rw [if_pos hw]
  · intro hr
    have hnw : ¬ (writeOperations.contains tc.name = true) := by
      rw [hr]; decide
    constructor
    · show (handleToolCall svc tc sid conv).2.2 = [⟨.readRange, sid⟩]
      unfold handleToolCall
      rw [if_neg hnw]
      show (executeToolCall svc tc sid).2 = [⟨.readRange, sid⟩]
      unfold executeToolCall
      rw [if_pos hr]
    · unfold handleToolCall
      rw [if_neg hnw]
      show (executeToolCall svc tc sid).1.requiresConfirmation = false
      unfold executeToolCall
      rw [if_pos hr]
      cases svc.readRange sid tc.input.range <;> rfl

/-- C5 (confirmed): any error thrown by a Sheets operation during
execution is caught inside `executeToolCall` and converted into an
`isError` outcome carrying the message (with the `Tool execution failed`
fallback for an empty message) — by construction the model's
`executeToolCall` is total, so no exception reaches the caller — and an
unknown tool name yields an `isError` outcome rather than a throw. -/
theorem error_conversion (svc : SheetsModel) (tc : ToolCall) (sid : String) (e : String) :
    (tc.name = "read_range" → svc.readRange sid tc.input.range = .error e →
      executeToolCall svc tc sid = (catchResult tc e, [⟨.readRange, sid⟩])) ∧
    (tc.name = "write_range" → svc.writeRange sid tc.input.range tc.input.values
        (vioOrDefault tc.input.valueInputOption) = .error e →
      executeToolCall svc tc sid = (catchResult tc e, [⟨.writeRange, sid⟩])) ∧
    (tc.name = "append_row" → svc.appendRow sid tc.input.range tc.input.values
        (vioOrDefault tc.input.valueInputOption) = .error e →
      executeToolCall svc tc sid = (catchResult tc e, [⟨.appendRow, sid⟩])) ∧
    (tc.name = "clear_range" → svc.clearRange sid tc.input.range = .error e →
      executeToolCall svc tc sid = (catchResult tc e, [⟨.clearRange, sid⟩])) ∧
    (tc.name = "create_chart" → svc.createChart sid ⟨tc.input.chartType,
        tc.input.dataSourceRange, tc.input.title, tc.input.legendPosition,
        tc.input.position⟩ = .error e →
      executeToolCall svc tc sid = (catchResult tc e, [⟨.createChart, sid⟩])) ∧
    (knownToolNames.contains tc.name = false →
      executeToolCall svc tc sid = (unknownToolResult tc, [])) ∧
    (catchResult tc e).isError = true ∧ (unknownToolResult tc).isError = true := by
  refine ⟨?_, ?_, ?_, ?_, ?_, ?_, rfl, rfl⟩
  · intro h1 h2
    unfold executeToolCall
    rw [h1]
    simp [h2]
  · intro h1 h2
    unfold executeToolCall
    rw [h1]
    simp [h2]
  · intro h1 h2
    unfold executeToolCall
    rw [h1]
    simp [h2]
  · intro h1 h2
    unfold executeToolCall
    rw [h1]
    simp [h2]
  · intro h1 h2
    unfold executeToolCall
    rw [h1]
    simp [h2]
  · intro h
    have h5 : tc.name ≠ "read_range" ∧ tc.name ≠ "write_range" ∧ tc.name ≠ "append_row" ∧
        tc.name ≠ "clear_range" ∧ tc.name ≠ "create_chart" := by
      simpa [knownToolNames, not_or] using h
    unfold executeToolCall
    rw [if_neg h5.1, if_neg h5.2.1, if_neg h5.2.2.1, if_neg h5.2.2.2.1, if_neg h5.2.2.2.2]

/-- `executeToolCall` never marks its outcome as requiring confirmation. -/
theorem executeToolCall_noConfirm (svc : SheetsModel) (tc : ToolCall) (sid : String) :
    (executeToolCall svc tc sid).1.requiresConfirmation = false := by
  unfold executeToolCall
  split_ifs <;> first | rfl | (split <;> rfl)



/-- The invocation-handling pass appends exactly the per-item `dispatchAppends` blocks, in order. -/
theorem runToolUses_messages (svc : SheetsModel) (sid : String) :
    ∀ (items : List ToolCall) (conv : Conversation),
    (runToolUses svc sid items conv).1.messages =
      conv.messages ++ items.flatMap (dispatchAppends svc sid) := by
  intro items
  induction items with
  | nil => intro conv; simp [runToolUses]
  | cons tc rest ih =>
    intro conv
    by_cases hw : writeOperations.contains tc.name = true
    · simp only [runToolUses, handleToolCall, if_pos hw, ih, List.flatMap_cons,
        dispatchAppends, Conversation.addPendingToolCall]
      simp [hw]
    · have hmem : tc.name ∉ writeOperations := by simpa using hw
      simp only [runToolUses, handleToolCall, if_neg hw, executeToolCall_noConfirm, ih,
        List.flatMap_cons, Conversation.addMessage]
      simp [dispatchAppends, hmem]

/-- The resolution loop appends exactly the contiguous `resolutionPair` messages, in order. -/
theorem confirmLoop_messages (svc : SheetsModel) (confirmed : Bool) :
    ∀ (pcs : List ToolCall) (conv : Conversation),
    (confirmLoop svc confirmed pcs conv).1.messages =
      conv.messages ++ pcs.flatMap (resolutionPair svc confirmed conv.spreadsheetId) := by
  intro pcs
  induction pcs with
  | nil => intro conv; simp [confirmLoop]
  | cons pc rest ih =>
    intro conv
    by_cases hc : confirmed = true
    · subst hc
      simp only [confirmLoop, Bool.not_true, Bool.false_eq_true, if_neg (by simp : ¬ (false = true)), ih,
        Conversation.addMessage, resolutionPair, List.flatMap_cons]
      simp [List.append_assoc]
    · have hc2 : confirmed = false := by revert hc; cases confirmed <;> simp
      subst hc2
      simp only [confirmLoop, Bool.not_false, if_pos rfl, ih, Conversation.addMessage,
        resolutionPair, List.flatMap_cons]
      simp [List.append_assoc]

/-- The resolution loop never touches the pending map. -/
theorem confirmLoop_pending (svc : SheetsModel) (confirmed : Bool) :
    ∀ (pcs : List ToolCall) (conv : Conversation),
    (confirmLoop svc confirmed pcs conv).1.pendingToolCalls = conv.pendingToolCalls := by
  intro pcs
  induction pcs with
  | nil => intro conv; simp [confirmLoop]
  | cons pc rest ih =>
    intro conv
    cases confirmed <;>
      simp [confirmLoop, ih, Conversation.addMessage]

/-- The resolution loop preserves the conversation id. -/
theorem confirmLoop_id (svc : SheetsModel) (confirmed : Bool) :
    ∀ (pcs : List ToolCall) (conv : Conversation),
    (confirmLoop svc confirmed pcs conv).1.id = conv.id := by
  intro pcs
  induction pcs with
  | nil => intro conv; simp [confirmLoop]
  | cons pc rest ih =>
    intro conv
    cases confirmed <;>
      simp [confirmLoop, ih, Conversation.addMessage]

/-- The resolution loop preserves the bound spreadsheet id. -/
theorem confirmLoop_sid (svc : SheetsModel) (confirmed : Bool) :
    ∀ (pcs : List ToolCall) (conv : Conversation),
    (confirmLoop svc confirmed pcs conv).1.spreadsheetId = conv.spreadsheetId := by
  intro pcs
  induction pcs with
  | nil => intro conv; simp [confirmLoop]
  | cons pc rest ih =>
    intro conv
    cases confirmed <;>
      simp [confirmLoop, ih, Conversation.addMessage]

/-- A denied resolution performs no Sheets call at all. -/
theorem confirmLoop_trace_denied (svc : SheetsModel) :
    ∀ (pcs : List ToolCall) (conv : Conversation),
    (confirmLoop svc false pcs conv).2 = [] := by
  intro pcs
  induction pcs with
  | nil => intro conv; simp [confirmLoop]
  | cons pc rest ih =>
    intro conv
    simp [confirmLoop, ih]

/-- Every Sheets call of the resolution loop targets the conversation-bound spreadsheet id. -/
theorem confirmLoop_trace_sid (svc : SheetsModel) (confirmed : Bool) :
    ∀ (pcs : List ToolCall) (conv : Conversation),
    ((confirmLoop svc confirmed pcs conv).2.all
      fun call => call.spreadsheetId = conv.spreadsheetId) = true := by
  intro pcs
  induction pcs with
  | nil => intro conv; simp [confirmLoop]
  | cons pc rest ih =>
    intro conv
    cases confirmed
    · simp [confirmLoop, ih, Conversation.addMessage]
    · simp only [confirmLoop, Bool.not_true, Bool.false_eq_true,
        if_neg (by simp : ¬ (false = true)), List.all_append]
      rw [Bool.and_eq_true]
      constructor
      · -- executeToolCall trace all have sid = conv.spreadsheetId
        have : ∀ (tc : ToolCall) (sid : String),
            ((executeToolCall svc tc sid).2.all fun call => call.spreadsheetId = sid) = true := by
          intro tc sid
          unfold executeToolCall
          split_ifs <;> simp
        simpa [Conversation.addMessage] using this pc conv.spreadsheetId
      · have := ih ((conv.addMessage ⟨.assistant, .blocks [toolUseBlock pc]⟩).addMessage
          ⟨.user, .blocks [.toolResult pc.id
            (executeToolCall svc pc (conv.addMessage ⟨.assistant, .blocks [toolUseBlock pc]⟩).spreadsheetId).1.content]⟩)
        simpa [Conversation.addMessage] using this



/-- Clearing removes every given id from the pending map. -/
theorem clear_removes (c : Conversation) (ids : List String) (id0 : String) (h : id0 ∈ ids) :
    ((c.clearPendingToolCalls ids).pendingToolCalls.find? fun p => p.1 = id0) = none := by
  simp only [Conversation.clearPendingToolCalls]
  rw [List.find?_eq_none]
  intro p hp
  have h2 := (List.mem_filter.mp hp).2
  simp only [Bool.not_eq_true'] at h2
  simp only [decide_eq_true_eq]
  intro he
  rw [he] at h2
  have h3 : ids.contains id0 = true := List.elem_eq_true_of_mem h
  rw [h2] at h3
  cases h3

/-- Unfolding of `confirmToolCalls` on a found conversation with a nonempty resolved set. -/
theorem confirmToolCalls_eq (svc : SheetsModel) (mgr : Manager) (cid : String)
    (ids : List String) (confirmed : Bool) (conv : Conversation)
    (hget : mgr.get cid = some conv)
    (hpend : conv.getPendingToolCalls ids ≠ []) :
    confirmToolCalls svc mgr cid ids confirmed =
      .ok (⟨true, (resolvedConversation svc confirmed conv ids).id,
            (resolvedConversation svc confirmed conv ids).hasPendingToolCalls,
            if (resolvedConversation svc confirmed conv ids).hasPendingToolCalls then
              (resolvedConversation svc confirmed conv ids).getAllPendingToolCalls.map
                pendingSummaryOf
            else []⟩,
           mgr.setConversation cid (resolvedConversation svc confirmed conv ids), 0,
           (confirmLoop svc confirmed (conv.getPendingToolCalls ids)
             (conv.clearPendingToolCalls ids)).2) := by
  unfold confirmToolCalls
  split
  · rename_i heq
    rw [heq] at hget
    cases hget
  · rename_i conv2 heq
    rw [heq] at hget
    have h2 := Option.some.inj hget
    subst h2
    rw [if_neg (by simpa [List.isEmpty_iff] using hpend)]



/-- Clearing pending calls does not touch the message log. -/
theorem clear_messages (c : Conversation) (ids : List String) :
    (c.clearPendingToolCalls ids).messages = c.messages := rfl

/-- Clearing pending calls does not touch the bound spreadsheet id. -/
theorem clear_sid (c : Conversation) (ids : List String) :
    (c.clearPendingToolCalls ids).spreadsheetId = c.spreadsheetId := rfl

/-- C9 (confirmed): resolving pending invocations with `approved = false`
performs no Sheets call at all (the trace component is `[]`), removes
every given id from the pending set, and appends for each resolved
invocation its tool_use message immediately followed by the synthetic
`denied` tool_result — never a real execution result. -/
theorem idempotent_denial (svc : SheetsModel) (mgr : Manager) (cid : String)
    (ids : List String) (conv : Conversation)
    (hget : mgr.get cid = some conv)
    (hpend : conv.getPendingToolCalls ids ≠ []) :
    confirmToolCalls svc mgr cid ids false =
      .ok (⟨true, (resolvedConversation svc false conv ids).id,
            (resolvedConversation svc false conv ids).hasPendingToolCalls,
            if (resolvedConversation svc false conv ids).hasPendingToolCalls then
              (resolvedConversation svc false conv ids).getAllPendingToolCalls.map
                pendingSummaryOf
            else []⟩,
           mgr.setConversation cid (resolvedConversation svc false conv ids), 0, []) ∧
    (resolvedConversation svc false conv ids).messages =
      conv.messages ++ (conv.getPendingToolCalls ids).flatMap
        (resolutionPair svc false conv.spreadsheetId) ∧
    (∀ id0, id0 ∈ ids →
      ((resolvedConversation svc false conv ids).pendingToolCalls.find?
        fun p => p.1 = id0) = none) := by
  refine ⟨?_, ?_, ?_⟩
  · rw [confirmToolCalls_eq svc mgr cid ids false conv hget hpend,
        confirmLoop_trace_denied svc (conv.getPendingToolCalls ids)
          (conv.clearPendingToolCalls ids)]
  · unfold resolvedConversation
    rw [confirmLoop_messages svc false (conv.getPendingToolCalls ids)
          (conv.clearPendingToolCalls ids), clear_messages, clear_sid]
  · intro id0 hid
    unfold resolvedConversation
    rw [confirmLoop_pending svc false (conv.getPendingToolCalls ids)
          (conv.clearPendingToolCalls ids)]
    exact clear_removes conv ids id0 hid

/-- C8 (corrected): `confirmToolCalls` always returns a well-formed
success record named after the conversation, with the remaining pending
set (those ids not resolved) listed when nonempty and empty otherwise; the
engine-request count in the result is 0 — the function never re-enters the
request loop, regardless of whether pending invocations remain (see the
counterexample). -/
theorem confirm_result_wellformed (svc : SheetsModel) (mgr : Manager) (cid : String)
    (ids : List String) (confirmed : Bool) (conv : Conversation)
    (hget : mgr.get cid = some conv)
    (hpend : conv.getPendingToolCalls ids ≠ []) :
    confirmToolCalls svc mgr cid ids confirmed =
      .ok (⟨true, conv.id, (resolvedConversation svc confirmed conv ids).hasPendingToolCalls,
            if (resolvedConversation svc confirmed conv ids).hasPendingToolCalls then
              (resolvedConversation svc confirmed conv ids).getAllPendingToolCalls.map
                pendingSummaryOf
            else []⟩,
           mgr.setConversation cid (resolvedConversation svc confirmed conv ids), 0,
           (confirmLoop svc confirmed (conv.getPendingToolCalls ids)
             (conv.clearPendingToolCalls ids)).2) ∧
    (resolvedConversation svc confirmed conv ids).pendingToolCalls =
      (conv.clearPendingToolCalls ids).pendingToolCalls := by
  constructor
  · have hid : (resolvedConversation svc confirmed conv ids).id = conv.id := by
      unfold resolvedConversation
      rw [confirmLoop_id svc confirmed (conv.getPendingToolCalls ids)
        (conv.clearPendingToolCalls ids)]
      rfl
    rw [confirmToolCalls_eq svc mgr cid ids confirmed conv hget hpend, hid]
  · unfold resolvedConversation
    exact confirmLoop_pending svc confirmed (conv.getPendingToolCalls ids)
      (conv.clearPendingToolCalls ids)

/-- C10 (corrected): for an existing conversation id,
`getOrCreateConversation` returns the stored conversation — with its
originally bound `spreadsheetId` — and leaves the registry unchanged, the
spreadsheet argument being ignored; and every Sheets call made when
resolving confirmed writes targets the conversation-bound spreadsheet id.
(Read-class executions during `handleMessage`, by contrast, use the
caller-supplied spreadsheet id — see the counterexample.) -/
theorem conversation_binding :
    (∀ (mgr : Manager) (id sid2 : String) (conv : Conversation),
      mgr.get id = some conv → mgr.getOrCreateConversation id sid2 = (conv, mgr)) ∧
    (∀ (svc : SheetsModel) (confirmed : Bool) (pcs : List ToolCall) (conv : Conversation),
      ((confirmLoop svc confirmed pcs conv).2.all
        fun call => call.spreadsheetId = conv.spreadsheetId) = true) := by
  constructor
  · intro mgr id sid2 conv h
    unfold Manager.getOrCreateConversation
    rw [h]
  · exact fun svc confirmed pcs conv => confirmLoop_trace_sid svc confirmed pcs conv

/-- C4 (corrected): during invocation handling, a write-class invocation
appends NOTHING to the log (only `dispatchAppends`, which is `[]` for
write names, is appended per item), while reads append their matched pair
contiguously; and on resolution, `confirmToolCalls` appends for each
resolved invocation its tool_use message and its tool_result contiguously
in the same step.  (An undispatched write tool_use in the final response at
the iteration cap is nevertheless appended without an outcome — see the
counterexample.) -/
theorem write_deferral :
    (∀ (svc : SheetsModel) (sid : String) (items : List ToolCall) (conv : Conversation),
      (runToolUses svc sid items conv).1.messages =
        conv.messages ++ items.flatMap (dispatchAppends svc sid)) ∧
    (∀ (svc : SheetsModel) (sid : String) (tc : ToolCall),
      writeOperations.contains tc.name = true → dispatchAppends svc sid tc = []) ∧
    (∀ (svc : SheetsModel) (confirmed : Bool) (pcs : List ToolCall) (conv : Conversation),
      (confirmLoop svc confirmed pcs conv).1.messages =
        conv.messages ++ pcs.flatMap (resolutionPair svc confirmed conv.spreadsheetId)) := by
  refine ⟨?_, ?_, ?_⟩
  · exact fun svc sid items conv => runToolUses_messages svc sid items conv
  · intro svc sid tc h
    unfold dispatchAppends
    rw [if_pos h]
  · exact fun svc confirmed pcs conv => confirmLoop_messages svc confirmed pcs conv



/-! ## Witnesses and counterexamples -/

/-- C1 witness: a concrete write invocation is recorded as pending with no
Sheets call, and a concrete read invocation performs the read call. -/
theorem confirmation_gating_witness :
    handleToolCall stubSvc wTc "s1" conv0 =
      (⟨"w1", pendingContent wTc, false, true⟩, conv0.addPendingToolCall wTc, []) ∧
    (handleToolCall stubSvc rTc "s1" conv0).2.2 = [⟨.readRange, "s1"⟩] :=
  ⟨(confirmation_gating stubSvc wTc "s1" conv0).1 (by decide),
   ((confirmation_gating stubSvc rTc "s1" conv0).2 rfl).1⟩

/-- C2 witness: a concrete compacted output satisfies the message-level
pairing chain. -/
theorem pairing_invariant_witness :
    wellPairedChain (⟨.user, .str (placeholderText 2)⟩ :: List.replicate 47 msgX) = true :=
  pairing_invariant_compacted log3 errSummarizer
    (⟨.user, .str (placeholderText 2)⟩ :: List.replicate 47 msgX) (by decide) (by decide)

/-- C2 counterexample: compaction triggers on `log2c` and the returned
sequence contains a message with a tool_use BLOCK (in second position of a
text-first message) while no tool_result block occurs anywhere in the
output — so at block granularity the claimed invariant fails. -/
theorem pairing_invariant_cex :
    getMessagesForAPI log2c errSummarizer =
      .ok (⟨.user, .str (placeholderText 1)⟩ :: (List.replicate 44 msgX ++ [mixedMsg])) ∧
    maxAllowedTokens < estimateTotalTokens log2c ∧
    hasToolUseBlocks mixedMsg = true ∧
    ((⟨.user, .str (placeholderText 1)⟩ :: (List.replicate 44 msgX ++ [mixedMsg])).all
      fun m => !hasToolResultBlocks m) = true := by
  decide

/-- C3 witness: a small log is returned unchanged; an over-budget log
yields the validated suffix (below budget) with one message prepended. -/
theorem budget_invariant_witness :
    getMessagesForAPI (List.replicate 5 msgX) errSummarizer =
      .ok (List.replicate 5 msgX) ∧
    (estimateTotalTokens (List.replicate 47 msgX) < maxAllowedTokens ∧
      ((⟨.user, .str (placeholderText 2)⟩ :: List.replicate 47 msgX) =
          List.replicate 47 msgX ∨
        ∃ m, (⟨.user, .str (placeholderText 2)⟩ :: List.replicate 47 msgX) =
          m :: List.replicate 47 msgX)) :=
  ⟨(budget_invariant (List.replicate 5 msgX) errSummarizer).1 (by decide),
   (budget_invariant log3 errSummarizer).2 (List.replicate 47 msgX)
     (⟨.user, .str (placeholderText 2)⟩ :: List.replicate 47 msgX)
     (by decide) (by decide) (by decide)⟩

/-- C3 counterexample: on `log3` compaction triggers, yet the returned
sequence — the placeholder summary plus the kept suffix — estimates 2467
tokens, above the 2404 budget. -/
theorem budget_invariant_cex :
    maxAllowedTokens < estimateTotalTokens log3 ∧
    getMessagesForAPI log3 errSummarizer =
      .ok (⟨.user, .str (placeholderText 2)⟩ :: List.replicate 47 msgX) ∧
    maxAllowedTokens < estimateTotalTokens
      (⟨.user, .str (placeholderText 2)⟩ :: List.replicate 47 msgX) := by
  decide

/-- C4 witness: one write-class invocation appends nothing during
dispatch. -/
theorem write_deferral_witness :
    (runToolUses stubSvc "s1" [wTc] conv0).1.messages =
      conv0.messages ++ [wTc].flatMap (dispatchAppends stubSvc "s1") ∧
    dispatchAppends stubSvc "s1" wTc = [] :=
  ⟨write_deferral.1 stubSvc "s1" [wTc] conv0,
   write_deferral.2.1 stubSvc "s1" wTc (by decide)⟩

/-- C4 counterexample: with an engine that exhausts the iteration cap and
then emits a write tool_use, `continueConversation` appends that write
invocation to the log (it was never dispatched, so it is not pending)
with no tool_result anywhere — a write invocation in the log without its
outcome. -/
theorem write_deferral_cex :
    continueConversation capEngine errSummarizer stubSvc conv0 "s1" =
      .ok (.message [.toolUse "w1" "write_range" wInput] "c1",
        ⟨"c1", "s1", [⟨.assistant, .blocks [.toolUse "w1" "write_range" wInput]⟩], []⟩,
        11, []) ∧
    hasToolUseBlocks ⟨.assistant, .blocks [.toolUse "w1" "write_range" wInput]⟩ = true ∧
    hasToolResultBlocks ⟨.assistant, .blocks [.toolUse "w1" "write_range" wInput]⟩ = false := by
  decide

/-- C5 witness: a throwing read call is converted into an error outcome
with its message, and an unknown tool name yields an error outcome. -/
theorem error_conversion_witness :
    executeToolCall errSvc rTc "s1" =
      (catchResult rTc "Invalid range", [⟨.readRange, "s1"⟩]) ∧
    executeToolCall stubSvc uTc "s1" = (unknownToolResult uTc, []) :=
  ⟨(error_conversion errSvc rTc "s1" "Invalid range").1 rfl rfl,
   (error_conversion stubSvc uTc "s1" "").2.2.2.2.2.1 (by decide)⟩

/-- C6 witness: a permanently `tool_use` engine makes the loop stop after
exactly 11 requests with a normal message result. -/
theorem iteration_cap_witness :
    continueConversation loopEngine errSummarizer stubSvc conv0 "s1" =
      .ok (.message [] conv0.id, conv0, 11, []) :=
  iteration_cap_theorem.2 loopEngine errSummarizer stubSvc conv0 "s1" []
    (fun _ _ => rfl) rfl rfl

/-- C6 counterexample: with the engine stuck on `stop_reason = tool_use`
and nothing pending, the turn terminates at the cap with a NORMAL
`message` result (`Except.ok`), not by surfacing an error as claimed. -/
theorem iteration_cap_cex :
    continueConversation loopEngine errSummarizer stubSvc conv0 "s1" =
      .ok (.message [] "c1", conv0, 11, []) := by
  decide

/-- C7 witness: a throwing summarizer yields the placeholder message; a
text-free summarizer response yields the suffix with no summary. -/
theorem summary_failure_witness :
    getMessagesForAPI log3 errSummarizer =
      .ok (⟨.user, .str (placeholderText 2)⟩ :: List.replicate 47 msgX) ∧
    getMessagesForAPI log3 emptySummarizer = .ok (List.replicate 47 msgX) :=
  ⟨(summary_failure log3 errSummarizer (List.replicate 47 msgX) (List.replicate 2 msgX)
      (by decide) (by decide) (by decide) (by decide)).1 "API Error" rfl,
   (summary_failure log3 emptySummarizer (List.replicate 47 msgX) (List.replicate 2 msgX)
      (by decide) (by decide) (by decide) (by decide)).2 [] rfl rfl⟩

/-- C7 counterexample: (a) a summarization response with no text output
produces NO placeholder — the output is exactly the kept suffix and no
message in it is the placeholder; (b) compaction can throw: on `log7b`
the kept suffix ends with a tool_use-first message and `getMessagesForAPI`
raises the TypeError instead of returning. -/
theorem summary_failure_cex :
    (getMessagesForAPI log3 emptySummarizer = .ok (List.replicate 47 msgX) ∧
      ((List.replicate 47 msgX).all
        fun m => decide (m.content ≠ Content.str (placeholderText 2))) = true) ∧
    getMessagesForAPI log7b errSummarizer = .error typeErrorMsg := by
  decide

/-- C8 witness: resolving the only pending invocation returns the success
record with the empty remainder, no engine request, and the stored
conversation updated. -/
theorem confirm_result_witness :
    confirmToolCalls stubSvc mgrP "c1" ["w1"] true =
      .ok (⟨true, convP.id,
            (resolvedConversation stubSvc true convP ["w1"]).hasPendingToolCalls,
            if (resolvedConversation stubSvc true convP ["w1"]).hasPendingToolCalls then
              (resolvedConversation stubSvc true convP ["w1"]).getAllPendingToolCalls.map
                pendingSummaryOf
            else []⟩,
           mgrP.setConversation "c1" (resolvedConversation stubSvc true convP ["w1"]), 0,
           (confirmLoop stubSvc true (convP.getPendingToolCalls ["w1"])
             (convP.clearPendingToolCalls ["w1"])).2) ∧
    (resolvedConversation stubSvc true convP ["w1"]).pendingToolCalls =
      (convP.clearPendingToolCalls ["w1"]).pendingToolCalls :=
  ⟨(confirm_result_wellformed stubSvc mgrP "c1" ["w1"] true convP rfl (by decide)).1,
   (confirm_result_wellformed stubSvc mgrP "c1" ["w1"] true convP rfl (by decide)).2⟩

/-- C8 counterexample: after confirming the only pending invocation —
leaving nothing pending — the function still makes 0 reasoning-engine
requests and returns the success record, rather than re-entering the
request loop as claimed. -/
theorem confirm_result_cex :
    (confirmToolCalls stubSvc mgrP "c1" ["w1"] true).map
      (fun r => (r.1, r.2.2.1, r.2.2.2)) =
      .ok (⟨true, "c1", false, []⟩, 0, [⟨.writeRange, "sheetA"⟩]) := by
  decide

/-- C9 witness: denying the only pending invocation makes no Sheets call,
clears the id, and appends the tool_use/denied-tool_result pair. -/
theorem idempotent_denial_witness :
    confirmToolCalls stubSvc mgrP "c1" ["w1"] false =
      .ok (⟨true, (resolvedConversation stubSvc false convP ["w1"]).id,
            (resolvedConversation stubSvc false convP ["w1"]).hasPendingToolCalls,
            if (resolvedConversation stubSvc false convP ["w1"]).hasPendingToolCalls then
              (resolvedConversation stubSvc false convP ["w1"]).getAllPendingToolCalls.map
                pendingSummaryOf
            else []⟩,
           mgrP.setConversation "c1" (resolvedConversation stubSvc false convP ["w1"]),
           0, []) ∧
    (resolvedConversation stubSvc false convP ["w1"]).messages =
      convP.messages ++ (convP.getPendingToolCalls ["w1"]).flatMap
        (resolutionPair stubSvc false convP.spreadsheetId) ∧
    ((resolvedConversation stubSvc false convP ["w1"]).pendingToolCalls.find?
      fun p => p.1 = "w1") = none :=
  ⟨(idempotent_denial stubSvc mgrP "c1" ["w1"] convP rfl (by decide)).1,
   (idempotent_denial stubSvc mgrP "c1" ["w1"] convP rfl (by decide)).2.1,
   (idempotent_denial stubSvc mgrP "c1" ["w1"] convP rfl (by decide)).2.2 "w1" (by decide)⟩

/-- C10 witness: an existing conversation id is returned with its
originally bound spreadsheet id, the argument being ignored; confirmed
executions target the bound spreadsheet id. -/
theorem conversation_binding_witness :
    mgrA.getOrCreateConversation "c1" "sheetB" = (Conversation.mk0 "c1" "sheetA", mgrA) ∧
    ((confirmLoop stubSvc true [wTc] convP).2.all
      fun call => call.spreadsheetId = convP.spreadsheetId) = true :=
  ⟨conversation_binding.1 mgrA "c1" "sheetB" (Conversation.mk0 "c1" "sheetA") (by decide),
   conversation_binding.2 stubSvc true [wTc] convP⟩

/-- C10 counterexample: the conversation stays bound to `sheetA`, yet the
read executed during `handleMessage` with caller-supplied `sheetB` is
issued against `sheetB` — a subsequent tool execution does NOT target the
spreadsheet bound at creation. -/
theorem conversation_binding_cex :
    (handleMessage c10Engine errSummarizer stubSvc mgrA "hi" (some "c1") (some "sheetB")).map
      (fun r => (r.2.2.2, (r.2.1.get "c1").map (fun c => c.spreadsheetId))) =
      .ok ([⟨.readRange, "sheetB"⟩], some "sheetA") := by
  decide

end Tab2
